import Mathlib

/-!
# blog-api: token service, auth gate, user and post rules

A shallow embedding of the authentication and ownership core of the blog API:

* `internal/infrastructure/auth/jwt.go`        -> namespace `auth`
* `internal/infrastructure/hash/bcrypt.go`     -> namespace `hash`
* `internal/domain/user`, `internal/application/user` -> namespace `user`
* `internal/domain/post`, `internal/application/post` -> namespace `post`
* `internal/infrastructure/postgres`           -> namespace `postgres`
* `internal/infrastructure/http/middlewares`   -> namespace `middlewares`

Conventions.

* A Go `error` result is an `Option Err` (`none` is `nil`); a `(T, error)` result is an
  `Except Err T`.
* Code that mutates the store takes the store and returns the new one.
* Every call that reads the clock (`time.Now()`) takes the reading as an argument.
  `GenerateToken` reads the clock twice and takes both readings, in the order of the reads;
  `Login` takes the reading of its own update and the two readings of the token.
* A time is an instant, taken in UTC.
* Go `uint` is `Nat` (no arithmetic is done on identifiers), Go `string` is `String` and
  Go `len(s)` is the number of UTF-8 bytes of `s`.
* The third-party libraries (`golang-jwt/jwt`, `x/crypto/bcrypt`, `gorm`) are outside the
  repository; the parts the code calls are modelled in the namespaces `jwt`, `json`,
  `bcrypt` and `gorm`, with symbolic cryptography (a MAC or a digest is the term built from
  its inputs). A token string is represented by what the parser of the library reads from it.
-/

namespace BlogApi

/-! ## Time -/

/-- An instant of `time.Time`, in nanoseconds since the Unix epoch. -/
structure Time where
  ns : Int
  deriving DecidableEq, Repr

namespace Time

/-- The duration `time.Hour`, in nanoseconds. -/
def Hour : Int := 3600 * 1000000000

/-- Go `t.Before(u)`: the instant `t` is strictly earlier than `u`. -/
def Before (t u : Time) : Bool := decide (t.ns < u.ns)

/-- Go `t.Add(d)`. -/
def Add (t : Time) (d : Int) : Time := ⟨t.ns + d⟩

/-- Go `t.Unix()`: whole seconds since the epoch, rounded down. -/
def Unix (t : Time) : Int := t.ns / 1000000000

/-- Go `time.Time{}`, the zero instant (January 1, year 1, 00:00 UTC). -/
def zero : Time := ⟨-62135596800 * 1000000000⟩

/-- Go `t.IsZero()`. -/
def IsZero (t : Time) : Bool := decide (t = zero)

end Time

/-! ## Errors -/

/-- The error values that the embedded code returns or passes on. -/
inductive Err where
  /-- `user.ErrUserNotFound`. -/
  | ErrUserNotFound
  /-- `user.ErrInvalidPassword`. -/
  | ErrInvalidPassword
  /-- `user.ErrDuplicateUsername`. -/
  | ErrDuplicateUsername
  /-- `user.ErrDuplicateEmail`. -/
  | ErrDuplicateEmail
  /-- `post.ErrPostNotFound`. -/
  | ErrPostNotFound
  /-- `post.ErrUnauthorized`. -/
  | ErrUnauthorized
  /-- `post.ErrInvalidTitle`. -/
  | ErrInvalidTitle
  /-- `post.ErrInvalidContent`. -/
  | ErrInvalidContent
  /-- `auth.ErrInvalidToken`. -/
  | ErrInvalidToken
  /-- `auth.ErrExpiredToken`. -/
  | ErrExpiredToken
  /-- `auth.ErrNoSecretKey`. -/
  | ErrNoSecretKey
  /-- `hash.ErrInvalidCost`. -/
  | ErrInvalidCost
  /-- `hash.ErrHashFailed`. -/
  | ErrHashFailed
  /-- `gorm.ErrRecordNotFound`. -/
  | ErrRecordNotFound
  /-- `bcrypt.ErrMismatchedHashAndPassword`. -/
  | ErrMismatchedHashAndPassword
  /-- A `*jwt.ValidationError` with its `Errors` bit field. -/
  | Validation (errors : Nat)
  /-- A fresh `errors.New(msg)` or `fmt.Errorf` value made at the call site. -/
  | New (msg : String)
  /-- An error of the database driver (connection lost, timeout, constraint violated). -/
  | Driver (msg : String)
  deriving DecidableEq, Repr

deriving instance DecidableEq for Except

/-- Go `len(s)` of a string: its length in bytes. -/
def len (s : String) : Nat := s.utf8ByteSize

/-! ## The JWT library (github.com/golang-jwt/jwt) -/

namespace jwt

/-- The fields of `jwt.StandardClaims`. -/
structure StandardClaims where
  Audience : String := ""
  ExpiresAt : Int := 0
  Id : String := ""
  IssuedAt : Int := 0
  Issuer : String := ""
  NotBefore : Int := 0
  Subject : String := ""
  deriving DecidableEq, Repr

/-- The hash function of a signing method. -/
inductive HashFn where
  | SHA256
  | SHA384
  | SHA512
  deriving DecidableEq, Repr

/-- The signing methods the library registers, by implementing type. -/
inductive SigningMethod where
  /-- `*jwt.SigningMethodHMAC`: HS256, HS384, HS512. -/
  | HMAC (h : HashFn)
  /-- `*jwt.SigningMethodRSA`: RS256, RS384, RS512. -/
  | RSA (h : HashFn)
  /-- `*jwt.SigningMethodRSAPSS`: PS256, PS384, PS512. -/
  | RSAPSS (h : HashFn)
  /-- `*jwt.SigningMethodECDSA`: ES256, ES384, ES512. -/
  | ECDSA (h : HashFn)
  /-- `*jwt.SigningMethodEd25519`: EdDSA. -/
  | Ed25519
  /-- The unsecured method `none`. -/
  | None
  deriving DecidableEq, Repr

/-- The digits of the name of a method for each hash function. -/
def HashFn.bits : HashFn → String
  | .SHA256 => "256"
  | .SHA384 => "384"
  | .SHA512 => "512"

/-- Go `method.Alg()`: the name written to the `alg` header. -/
def SigningMethod.Alg : SigningMethod → String
  | .HMAC h => "HS" ++ h.bits
  | .RSA h => "RS" ++ h.bits
  | .RSAPSS h => "PS" ++ h.bits
  | .ECDSA h => "ES" ++ h.bits
  | .Ed25519 => "EdDSA"
  | .None => "none"

/-- The registered methods, as `jwt.GetSigningMethod` searches them. -/
def signingMethods : List SigningMethod :=
  [.HMAC .SHA256, .HMAC .SHA384, .HMAC .SHA512,
   .RSA .SHA256, .RSA .SHA384, .RSA .SHA512,
   .RSAPSS .SHA256, .RSAPSS .SHA384, .RSAPSS .SHA512,
   .ECDSA .SHA256, .ECDSA .SHA384, .ECDSA .SHA512,
   .Ed25519, .None]

/-- Go `jwt.GetSigningMethod(alg)`: the method registered under the name, if any. -/
def GetSigningMethod (alg : String) : Option SigningMethod :=
  signingMethods.find? (fun m => m.Alg == alg)

/-- The bits of `ValidationError.Errors`. -/
def ValidationErrorMalformed : Nat := 1 <<< 0
/-- Token could not be verified because of signing problems. -/
def ValidationErrorUnverifiable : Nat := 1 <<< 1
/-- Signature validation failed. -/
def ValidationErrorSignatureInvalid : Nat := 1 <<< 2
/-- AUD validation failed. -/
def ValidationErrorAudience : Nat := 1 <<< 3
/-- EXP validation failed. -/
def ValidationErrorExpired : Nat := 1 <<< 4
/-- IAT validation failed. -/
def ValidationErrorIssuedAt : Nat := 1 <<< 5
/-- ISS validation failed. -/
def ValidationErrorIssuer : Nat := 1 <<< 6
/-- NBF validation failed. -/
def ValidationErrorNotValidYet : Nat := 1 <<< 7
/-- JTI validation failed. -/
def ValidationErrorId : Nat := 1 <<< 8
/-- Generic claims validation error. -/
def ValidationErrorClaimsInvalid : Nat := 1 <<< 9

/-- Go `verifyExp`: an absent (zero) expiry passes unless required. -/
def verifyExp (exp now : Int) (required : Bool) : Bool :=
  if exp = 0 then !required else decide (now ≤ exp)

/-- Go `verifyIat`: an absent (zero) issued-at passes unless required. -/
def verifyIat (iat now : Int) (required : Bool) : Bool :=
  if iat = 0 then !required else decide (now ≥ iat)

/-- Go `verifyNbf`: an absent (zero) not-before passes unless required. -/
def verifyNbf (nbf now : Int) (required : Bool) : Bool :=
  if nbf = 0 then !required else decide (now ≥ nbf)

/-- Go `StandardClaims.Valid()`, with `now = TimeFunc().Unix()`: the `Errors` bits of the
validation error it returns, `0` when it returns `nil`. -/
def StandardClaims.Valid (c : StandardClaims) (now : Int) : Nat :=
  let e0 : Nat := 0
  let e1 := if !verifyExp c.ExpiresAt now false then e0 ||| ValidationErrorExpired else e0
  let e2 := if !verifyIat c.IssuedAt now false then e1 ||| ValidationErrorIssuedAt else e1
  let e3 := if !verifyNbf c.NotBefore now false then e2 ||| ValidationErrorNotValidYet else e2
  e3

end jwt

namespace auth

/-- The claims of a token, `auth.Claims`: the standard claims (embedded) with the user id and
the password epoch. -/
structure Claims extends jwt.StandardClaims where
  UserID : Nat
  PasswordChangedAt : Time
  deriving DecidableEq, Repr

end auth

/-! ## The JSON encoding of the claims (encoding/json, time) -/

namespace json

/-- The RFC 3339 text of a time, by what it spells: the date, given as its day number counted
from 1970-01-01, the time of day, and the fraction of the second in nanoseconds. -/
structure Timestamp where
  day : Int
  hour : Int
  minute : Int
  second : Int
  nano : Int
  deriving DecidableEq, Repr

/-- The day number of 0000-01-01, the first day of the years that a time marshals for. -/
def firstDay : Int := -719528

/-- The day number of 9999-12-31, the last day of the years that a time marshals for. -/
def lastDay : Int := 2932896

/-- The year of the time is within 0..9999. -/
def YearInRange (t : Time) : Prop := firstDay ≤ t.Unix / 86400 ∧ t.Unix / 86400 ≤ lastDay

instance (t : Time) : Decidable (YearInRange t) := by
  unfold YearInRange
  exact inferInstance

/-- Go `t.MarshalJSON()`: the RFC 3339 text of the time; it fails when the year of the time is
outside 0..9999. -/
def MarshalTime (t : Time) : Except Err Timestamp :=
  if t.Unix / 86400 < firstDay ∨ t.Unix / 86400 > lastDay then
    .error (.New "Time.MarshalJSON: year outside of range [0,9999]")
  else
    .ok { day := t.Unix / 86400
          hour := t.Unix % 86400 / 3600
          minute := t.Unix % 3600 / 60
          second := t.Unix % 60
          nano := t.ns % 1000000000 }

/-- Go `t.UnmarshalJSON(text)`: the time that an RFC 3339 text spells; a text with a field out
of range does not parse. -/
def UnmarshalTime (w : Timestamp) : Option Time :=
  if firstDay ≤ w.day ∧ w.day ≤ lastDay ∧ 0 ≤ w.hour ∧ w.hour < 24 ∧ 0 ≤ w.minute ∧
      w.minute < 60 ∧ 0 ≤ w.second ∧ w.second < 60 ∧ 0 ≤ w.nano ∧ w.nano < 1000000000 then
    some ⟨(w.day * 86400 + w.hour * 3600 + w.minute * 60 + w.second) * 1000000000 + w.nano⟩
  else none

/-- The JSON object of the claims segment, by the struct tags of `auth.Claims`; a member that
`omitempty` leaves out is the zero value. -/
structure ClaimsObject where
  user_id : Nat
  pwd_changed_at : Timestamp
  aud : String
  exp : Int
  jti : String
  iat : Int
  iss : String
  nbf : Int
  sub : String
  deriving DecidableEq, Repr

/-- Go `json.Marshal(claims)`: it fails when a member fails to marshal. -/
def Marshal (c : auth.Claims) : Except Err ClaimsObject :=
  match MarshalTime c.PasswordChangedAt with
  | .error e => .error e
  | .ok w =>
    .ok { user_id := c.UserID, pwd_changed_at := w, aud := c.Audience, exp := c.ExpiresAt,
          jti := c.Id, iat := c.IssuedAt, iss := c.Issuer, nbf := c.NotBefore,
          sub := c.Subject }

/-- Go `json.Unmarshal(text, &claims)`: it fails when a member does not parse. -/
def Unmarshal (o : ClaimsObject) : Option auth.Claims :=
  match UnmarshalTime o.pwd_changed_at with
  | none => none
  | some t =>
    some { UserID := o.user_id, PasswordChangedAt := t, Audience := o.aud, ExpiresAt := o.exp,
           Id := o.jti, IssuedAt := o.iat, Issuer := o.iss, NotBefore := o.nbf,
           Subject := o.sub }

end json

namespace jwt

/-- The signature segment of a token. A MAC is the term built from the hash function, the key
and the signed text (the header and the claims); any other content is opaque bytes. -/
inductive Signature where
  | mac (h : HashFn) (key : String) (alg : Option String) (claims : auth.Claims)
  | bytes (raw : String)
  deriving DecidableEq, Repr

/-- A token string as the parser of the library reads it: either it does not split into three
decodable segments, or it carries a header (its `alg` entry, `none` when absent or not a
string), claims and a signature. -/
inductive TokenString where
  | malformed
  | compact (alg : Option String) (claims : auth.Claims) (sig : Signature)
  deriving DecidableEq, Repr

/-- The fields of `jwt.Token` that the code reads. -/
structure Token where
  Method : SigningMethod
  alg : Option String
  Claims : auth.Claims
  Valid : Bool
  deriving DecidableEq, Repr

/-- Go `method.Sign(signingString, key)` with a byte-slice key: only the HMAC methods accept
such a key. -/
def SigningMethod.Sign (m : SigningMethod) (alg : Option String) (claims : auth.Claims)
    (key : String) : Except Err Signature :=
  match m with
  | .HMAC h => .ok (.mac h key alg claims)
  | _ => .error (.New "key is of invalid type")

/-- Go `method.Verify(signingString, signature, key)` with a byte-slice key: an HMAC method
recomputes the MAC and compares. -/
def SigningMethod.Verify (m : SigningMethod) (alg : Option String) (claims : auth.Claims)
    (sig : Signature) (key : String) : Option Err :=
  match m with
  | .HMAC h => if sig = .mac h key alg claims then none else some (.New "signature is invalid")
  | _ => some (.New "key is of invalid type")

/-- Go `jwt.NewWithClaims(method, claims)` followed by `token.SignedString(key)`: the claims
are marshalled to the claims segment, which can fail, and the header and that segment are
signed. The token string returned is represented by what the parser reads from it: the claims
are those that the claims segment unmarshals to. -/
def SignedString (method : SigningMethod) (claims : auth.Claims) (key : String) :
    Except Err TokenString :=
  match json.Marshal claims with
  | .error e => .error e
  | .ok segment =>
    match json.Unmarshal segment with
    | none =>
      match method.Sign (some method.Alg) claims key with
      | .ok _ => .ok .malformed
      | .error e => .error e
    | some read =>
      match method.Sign (some method.Alg) read key with
      | .ok sig => .ok (.compact (some method.Alg) read sig)
      | .error e => .error e

/-- Go `Parser.ParseUnverified`: split and decode the token and look its method up; the error
is the `Errors` bit field of the validation error. -/
def ParseUnverified (tokenString : TokenString) : Except Nat Token :=
  match tokenString with
  | .malformed => .error ValidationErrorMalformed
  | .compact alg claims _ =>
    match alg with
    | some a =>
      match GetSigningMethod a with
      | some m => .ok { Method := m, alg := alg, Claims := claims, Valid := false }
      | none => .error ValidationErrorUnverifiable
    | none => .error ValidationErrorUnverifiable

/-- The claims segment of a token string, when it has one. -/
def TokenString.claimsOf : TokenString → Option auth.Claims
  | .malformed => none
  | .compact _ c _ => some c

/-- The signature segment of a token string (`parts[2]`). -/
def TokenString.signature : TokenString → Signature
  | .malformed => .bytes ""
  | .compact _ _ sig => sig

/-- Go `jwt.ParseWithClaims(tokenString, claims, keyFunc)` with the default parser, at the
clock reading `now` (in seconds): the token with `Valid` set, or the `Errors` bit field of the
validation error. -/
def ParseWithClaims (tokenString : TokenString) (keyFunc : Token → Except Err String)
    (now : Int) : Except Nat Token :=
  match ParseUnverified tokenString with
  | .error e => .error e
  | .ok token =>
    match keyFunc token with
    | .error (.Validation e) => .error e
    | .error _ => .error ValidationErrorUnverifiable
    | .ok key =>
      let vErr := token.Claims.toStandardClaims.Valid now
      let vErr :=
        match token.Method.Verify token.alg token.Claims tokenString.signature key with
        | some _ => vErr ||| ValidationErrorSignatureInvalid
        | none => vErr
      if vErr = 0 then .ok { token with Valid := true } else .error vErr

end jwt

/-! ## internal/infrastructure/auth/jwt.go -/

namespace auth

/-- The lifetime of a token: 24 hours. -/
def TokenExpireDuration : Int := Time.Hour * 24

/-- The token service: it holds the signing key. -/
structure JWTService where
  secretKey : String
  deriving DecidableEq, Repr

/-- Go `NewJWTService`. -/
def NewJWTService (secretKey : String) : JWTService := { secretKey := secretKey }

/-- Go `JWTService.GenerateToken`. The struct literal reads the clock twice: `now1` is the
reading of the first `time.Now()` (for `ExpiresAt`), `now2` that of the second (for
`IssuedAt`). -/
def JWTService.GenerateToken (s : JWTService) (userID : Nat) (passwordChangedAt : Time)
    (now1 now2 : Time) : Except Err jwt.TokenString :=
  let claims : Claims :=
    { UserID := userID
      PasswordChangedAt := passwordChangedAt
      ExpiresAt := (now1.Add TokenExpireDuration).Unix
      IssuedAt := now2.Unix
      Issuer := "blog-api" }
  jwt.SignedString (.HMAC .SHA256) claims s.secretKey

/-- The claims that `GenerateToken` writes for a user id and an epoch at the clock readings
`now1` and `now2` (the struct literal of its first statement). -/
def issuedClaims (userID : Nat) (passwordChangedAt now1 now2 : Time) : Claims :=
  { UserID := userID
    PasswordChangedAt := passwordChangedAt
    ExpiresAt := (now1.Add TokenExpireDuration).Unix
    IssuedAt := now2.Unix
    Issuer := "blog-api" }

/-- The token string that carries the claims under an HS256 MAC of the key. -/
def signedHS256 (key : String) (claims : Claims) : jwt.TokenString :=
  .compact (some "HS256") claims (.mac .SHA256 key (some "HS256") claims)

/-- The key function that `ParseToken` hands to the library. -/
def JWTService.keyFunc (s : JWTService) (token : jwt.Token) : Except Err String :=
  match token.Method with
  | .HMAC _ => .ok s.secretKey
  | _ => .error (.New "unexpected signing method")

/-- Go `JWTService.ParseToken`, called at the clock reading `now`. -/
def JWTService.ParseToken (s : JWTService) (tokenString : jwt.TokenString) (now : Time) :
    Except Err Claims :=
  match jwt.ParseWithClaims tokenString s.keyFunc now.Unix with
  | .error ve =>
    if ve &&& jwt.ValidationErrorMalformed ≠ 0 then
      .error .ErrInvalidToken
    else if ve &&& (jwt.ValidationErrorExpired ||| jwt.ValidationErrorNotValidYet) ≠ 0 then
      .error .ErrExpiredToken
    else
      .error (.Validation ve)
  | .ok token =>
    if token.Valid then .ok token.Claims else .error .ErrInvalidToken

/-- Go `JWTService.ValidateToken`. -/
def JWTService.ValidateToken (s : JWTService) (tokenString : jwt.TokenString) (now : Time) :
    Except Err Claims :=
  s.ParseToken tokenString now

end auth

/-! ## The bcrypt library (golang.org/x/crypto/bcrypt) -/

namespace bcrypt

/-- A stored password digest. A bcrypt digest is the term built from the cost, the salt and the
password; a string that is not a bcrypt digest is opaque. -/
inductive Digest where
  | hashed (cost : Int) (salt : Nat) (password : String)
  | other (raw : String)
  deriving DecidableEq, Repr

/-- Go `bcrypt.GenerateFromPassword(password, cost)`. A password of more than 72 bytes is
refused. The salt read from the entropy source is `entropy`; `none` stands for a failed read.
A cost below 4 is replaced by the default 10, a cost above 31 is refused. -/
def GenerateFromPassword (password : String) (cost : Int) (entropy : Option Nat) :
    Except Err Digest :=
  if len password > 72 then
    .error (.New "bcrypt: password length exceeds 72 bytes")
  else
    let cost := if cost < 4 then 10 else cost
    if cost > 31 then .error (.New "crypto/bcrypt: cost outside allowed range")
    else
      match entropy with
      | none => .error (.New "crypto/rand: read failed")
      | some salt => .ok (.hashed cost salt password)

/-- Go `bcrypt.CompareHashAndPassword(hashedPassword, password)`. -/
def CompareHashAndPassword (hashedPassword : Digest) (password : String) : Option Err :=
  match hashedPassword with
  | .hashed _ _ p => if p = password then none else some .ErrMismatchedHashAndPassword
  | .other _ => some (.New "crypto/bcrypt: hashedSecret is not a bcrypt digest")

end bcrypt

/-! ## internal/infrastructure/hash/bcrypt.go -/

namespace hash

/-- The least cost of bcrypt. -/
def MinCost : Int := 4
/-- The greatest cost of bcrypt. -/
def MaxCost : Int := 31
/-- The default cost. -/
def DefaultCost : Int := 10

/-- Go `hash.GenerateFromPassword`. -/
def GenerateFromPassword (password : String) (cost : Int) (entropy : Option Nat) :
    Except Err bcrypt.Digest :=
  if cost < MinCost ∨ cost > MaxCost then .error .ErrInvalidCost
  else
    match bcrypt.GenerateFromPassword password cost entropy with
    | .error _ => .error .ErrHashFailed
    | .ok h => .ok h

/-- Go `hash.CompareHashAndPassword`. -/
def CompareHashAndPassword (hashedPassword : bcrypt.Digest) (password : String) : Option Err :=
  bcrypt.CompareHashAndPassword hashedPassword password

/-- Go `hash.GenerateFromPasswordWithDefault`. -/
def GenerateFromPasswordWithDefault (password : String) (entropy : Option Nat) :
    Except Err bcrypt.Digest :=
  GenerateFromPassword password DefaultCost entropy

end hash

/-! ## internal/domain/user/user.go -/

namespace user

/-- The user entity. -/
structure User where
  ID : Nat := 0
  Username : String := ""
  Email : String := ""
  PasswordHash : bcrypt.Digest := .other ""
  PasswordChangedAt : Time := Time.zero
  FirstName : String := ""
  LastName : String := ""
  CreatedAt : Time := Time.zero
  UpdatedAt : Time := Time.zero
  LastLogin : Option Time := none
  IsActive : Bool := false
  deriving DecidableEq, Repr

/-- The interface `user.Repository` over a store of type `σ`. `Create` and `Update` take the
clock reading of the call. -/
structure Repository (σ : Type) where
  Create : User → Time → σ → Option Err × σ
  FindByID : Nat → σ → Except Err User
  FindByUsername : String → σ → Except Err User
  FindByEmail : String → σ → Except Err User
  Update : User → Time → σ → Option Err × σ
  Delete : Nat → σ → Option Err × σ

/-- Go `user.ValidatePassword`. -/
def ValidatePassword (password : String) : Option Err :=
  if len password < 8 then some (.New "password must be at least 8 characters long")
  else none

/-- Go `User.FullName`. -/
def User.FullName (u : User) : String := u.FirstName ++ " " ++ u.LastName

/-- Go `User.UpdateLastLogin`, at the clock reading `now`. -/
def User.UpdateLastLogin (u : User) (now : Time) : User :=
  { u with LastLogin := some now }

/-- Go `User.ChangePassword`, at the clock reading `now`. -/
def User.ChangePassword (u : User) (newPasswordHash : bcrypt.Digest) (now : Time) : User :=
  { u with PasswordHash := newPasswordHash, UpdatedAt := now }

end user

/-! ## internal/domain/post/post.go -/

namespace post

/-- The post entity. -/
structure Post where
  ID : Nat := 0
  Title : String := ""
  Content : String := ""
  UserID : Nat := 0
  CreatedAt : Time := Time.zero
  UpdatedAt : Time := Time.zero
  deriving DecidableEq, Repr

/-- The interface `post.Repository` over a store of type `σ` (the paged listing `FindAll`
is left out). `Create` and `Update` take the clock reading of the call. -/
structure Repository (σ : Type) where
  FindByID : Nat → σ → Except Err Post
  Create : Post → Time → σ → Option Err × σ
  Update : Post → Time → σ → Option Err × σ
  Delete : Nat → σ → Option Err × σ

/-- Go `post.ValidateTitle`. -/
def ValidateTitle (title : String) : Option Err :=
  if len title < 3 ∨ len title > 255 then some .ErrInvalidTitle else none

/-- Go `post.ValidateContent`. -/
def ValidateContent (content : String) : Option Err :=
  if len content < 10 then some .ErrInvalidContent else none

/-- Go `Post.IsAuthor`. -/
def Post.IsAuthor (p : Post) (userID : Nat) : Bool := p.UserID == userID

/-- Go `Post.UpdateContent`, at the clock reading `now`: the error and the post after the
call. -/
def Post.UpdateContent (p : Post) (newTitle newContent : String) (now : Time) :
    Option Err × Post :=
  match ValidateTitle newTitle with
  | some err => (some err, p)
  | none =>
    match ValidateContent newContent with
    | some err => (some err, p)
    | none => (none, { p with Title := newTitle, Content := newContent, UpdatedAt := now })

end post

/-! ## internal/application/user/service.go -/

namespace user

/-- The user service: a repository and the token service. -/
structure Service (σ : Type) where
  repo : Repository σ
  jwtService : auth.JWTService

/-- Go `user.NewService`. -/
def NewService {σ : Type} (repo : Repository σ) (jwtService : auth.JWTService) : Service σ :=
  { repo := repo, jwtService := jwtService }

/-- The input of a registration. -/
structure RegisterInput where
  Username : String
  Password : String
  Email : String
  FirstName : String := ""
  LastName : String := ""
  deriving DecidableEq, Repr

/-- The input of a login. -/
structure LoginInput where
  Username : String
  Password : String
  deriving DecidableEq, Repr

/-- The input of a password change. -/
structure ChangePasswordInput where
  CurrentPassword : String
  NewPassword : String
  deriving DecidableEq, Repr

/-- Go `Service.Register`, at the clock reading `now`, with the salt `entropy` for the
hasher. -/
def Service.Register {σ : Type} (s : Service σ) (input : RegisterInput) (now : Time)
    (entropy : Option Nat) (st : σ) : Option Err × σ :=
  match s.repo.FindByUsername input.Username st with
  | .ok _ => (some .ErrDuplicateUsername, st)
  | .error _ =>
    match s.repo.FindByEmail input.Email st with
    | .ok _ => (some .ErrDuplicateEmail, st)
    | .error _ =>
      match ValidatePassword input.Password with
      | some err => (some err, st)
      | none =>
        match hash.GenerateFromPassword input.Password hash.DefaultCost entropy with
        | .error err => (some err, st)
        | .ok hashedPassword =>
          let newUser : User :=
            { Username := input.Username
              Email := input.Email
              PasswordHash := hashedPassword
              FirstName := input.FirstName
              LastName := input.LastName
              IsActive := true
              PasswordChangedAt := now }
          s.repo.Create newUser now st

/-- Go `Service.Login`. `now` is the clock reading of the update of the user (the last login
and the save); `now1` and `now2` are the two readings of `GenerateToken`. -/
def Service.Login {σ : Type} (s : Service σ) (input : LoginInput) (now now1 now2 : Time)
    (st : σ) : Except Err jwt.TokenString × σ :=
  match s.repo.FindByUsername input.Username st with
  | .error err =>
    if err = .ErrUserNotFound then (.error .ErrInvalidPassword, st) else (.error err, st)
  | .ok u =>
    if !u.IsActive then (.error (.New "account is not active"), st)
    else
      match hash.CompareHashAndPassword u.PasswordHash input.Password with
      | some _ => (.error .ErrInvalidPassword, st)
      | none =>
        let u := u.UpdateLastLogin now
        match s.repo.Update u now st with
        | (some err, st1) => (.error err, st1)
        | (none, st1) =>
          match s.jwtService.GenerateToken u.ID u.PasswordChangedAt now1 now2 with
          | .error err => (.error err, st1)
          | .ok token => (.ok token, st1)

/-- Go `Service.GetUserProfile`. -/
def Service.GetUserProfile {σ : Type} (s : Service σ) (id : Nat) (st : σ) : Except Err User :=
  s.repo.FindByID id st

/-- Go `Service.ChangePassword`, at the clock reading `now`, with the salt `entropy` for the
hasher. -/
def Service.ChangePassword {σ : Type} (s : Service σ) (userID : Nat)
    (input : ChangePasswordInput) (now : Time) (entropy : Option Nat) (st : σ) :
    Option Err × σ :=
  match s.repo.FindByID userID st with
  | .error err => (some err, st)
  | .ok u =>
    match hash.CompareHashAndPassword u.PasswordHash input.CurrentPassword with
    | some _ => (some (.New "current password is incorrect"), st)
    | none =>
      match ValidatePassword input.NewPassword with
      | some err => (some err, st)
      | none =>
        match hash.GenerateFromPassword input.NewPassword hash.DefaultCost entropy with
        | .error err => (some err, st)
        | .ok hashedPassword =>
          let u := { u with PasswordHash := hashedPassword, PasswordChangedAt := now }
          s.repo.Update u now st

end user

/-! ## internal/application/post/service.go -/

namespace post

/-- The post service. -/
structure Service (σ : Type) where
  repo : Repository σ

/-- Go `post.NewService`. -/
def NewService {σ : Type} (repo : Repository σ) : Service σ := { repo := repo }

/-- Go `Service.GetPostByID`. -/
def Service.GetPostByID {σ : Type} (s : Service σ) (id : Nat) (st : σ) : Except Err Post :=
  s.repo.FindByID id st

/-- Go `Service.CreatePost`. -/
def Service.CreatePost {σ : Type} (s : Service σ) (p : Post) (now : Time) (st : σ) :
    Option Err × σ :=
  match ValidateTitle p.Title with
  | some err => (some err, st)
  | none =>
    match ValidateContent p.Content with
    | some err => (some err, st)
    | none => s.repo.Create p now st

/-- Go `Service.UpdatePost`, at the clock reading `now`. -/
def Service.UpdatePost {σ : Type} (s : Service σ) (p : Post) (userID : Nat) (now : Time)
    (st : σ) : Option Err × σ :=
  match s.repo.FindByID p.ID st with
  | .error err => (some err, st)
  | .ok existingPost =>
    if !existingPost.IsAuthor userID then (some .ErrUnauthorized, st)
    else
      match existingPost.UpdateContent p.Title p.Content now with
      | (some err, _) => (some err, st)
      | (none, existingPost) => s.repo.Update existingPost now st

/-- Go `Service.DeletePost`. -/
def Service.DeletePost {σ : Type} (s : Service σ) (id userID : Nat) (st : σ) :
    Option Err × σ :=
  match s.repo.FindByID id st with
  | .error err => (some err, st)
  | .ok existingPost =>
    if !existingPost.IsAuthor userID then (some .ErrUnauthorized, st)
    else s.repo.Delete id st

end post

/-! ## The object-relational mapper (gorm.io/gorm) over PostgreSQL -/

namespace gorm

/-- How a struct maps to its table: the primary key, the unique indexes, and the time stamps
that the mapper fills in. -/
structure Schema (α : Type) where
  /-- The primary key of a row. -/
  key : α → Nat
  /-- The row with its primary key set. -/
  withKey : α → Nat → α
  /-- Whether a unique index other than the primary key forbids the two rows together. -/
  clash : α → α → Bool
  /-- The row as inserted at `now`: zero values that the mapper or a column default fills in
  are set. -/
  created : α → Time → α
  /-- The row as saved at `now`: `UpdatedAt` is set. -/
  updated : α → Time → α

/-- A table: its rows and the last value of the sequence of its primary key. Column values
are kept as given. -/
structure Table (α : Type) where
  rows : List α := []
  seq : Nat := 0
  deriving DecidableEq, Repr

/-- The row with the least key among the rows, `none` for no rows. -/
def least {α : Type} (key : α → Nat) : List α → Option α
  | [] => none
  | r :: rs =>
    match least key rs with
    | none => some r
    | some b => if key r ≤ key b then some r else some b

/-- The error of a violated unique constraint. -/
def duplicateKey : Err := .Driver "duplicate key value violates unique constraint"

/-- Go `db.Where(cond).First(&v)`: the matching row with the least primary key, or
`gorm.ErrRecordNotFound`. -/
def First {α : Type} (sch : Schema α) (t : Table α) (cond : α → Bool) : Except Err α :=
  match least sch.key (t.rows.filter cond) with
  | some r => .ok r
  | none => .error .ErrRecordNotFound

/-- Go `db.Create(&v)`: a zero primary key is drawn from the sequence; the insert fails when
the primary key or a unique index is taken. -/
def Create {α : Type} (sch : Schema α) (t : Table α) (v : α) (now : Time) :
    Option Err × Table α :=
  let seq := if sch.key v = 0 then t.seq + 1 else t.seq
  let v := sch.created (if sch.key v = 0 then sch.withKey v seq else v) now
  if t.rows.any (fun r => sch.key r == sch.key v || sch.clash r v) then
    (some duplicateKey, { t with seq := seq })
  else
    (none, { rows := t.rows ++ [v], seq := seq })

/-- Go `db.Save(&v)`: with a zero primary key it creates; otherwise it updates every column
of the row with that key, and inserts the row when there is none. -/
def Save {α : Type} (sch : Schema α) (t : Table α) (v : α) (now : Time) :
    Option Err × Table α :=
  if sch.key v = 0 then Create sch t v now
  else
    let v := sch.updated v now
    if t.rows.any (fun r => sch.key r == sch.key v) then
      if t.rows.any (fun r => sch.key r != sch.key v && sch.clash r v) then
        (some duplicateKey, t)
      else
        (none, { t with rows := t.rows.map (fun r => if sch.key r == sch.key v then v else r) })
    else if t.rows.any (fun r => sch.clash r v) then
      (some duplicateKey, t)
    else
      (none, { t with rows := t.rows ++ [sch.created v now] })

/-- Go `db.Delete(&T{}, id)`: the rows with that primary key are removed. -/
def Delete {α : Type} (sch : Schema α) (t : Table α) (id : Nat) : Option Err × Table α :=
  (none, { t with rows := t.rows.filter (fun r => sch.key r != id) })

/-- The database handle `*gorm.DB`: the two tables, and the failure of the connection, if it
has one (then every statement returns that driver error). -/
structure DB where
  users : Table user.User := {}
  posts : Table post.Post := {}
  fault : Option String := none
  deriving DecidableEq, Repr

end gorm

/-! ## internal/infrastructure/postgres -/

namespace postgres

/-- The mapping of `user.User`: `Username` and `Email` carry a unique index; on an insert a
zero `CreatedAt` or `UpdatedAt` is filled in and a false `IsActive` takes the column default
`true` (the tag `default:true`). -/
def userSchema : gorm.Schema user.User where
  key u := u.ID
  withKey u id := { u with ID := id }
  clash r v := r.Username == v.Username || r.Email == v.Email
  created u now :=
    { u with
      CreatedAt := if u.CreatedAt.IsZero then now else u.CreatedAt
      UpdatedAt := if u.UpdatedAt.IsZero then now else u.UpdatedAt
      IsActive := if u.IsActive = false then true else u.IsActive }
  updated u now := { u with UpdatedAt := now }

/-- The mapping of `post.Post`: no unique index but the primary key. -/
def postSchema : gorm.Schema post.Post where
  key p := p.ID
  withKey p id := { p with ID := id }
  clash _ _ := false
  created p now :=
    { p with
      CreatedAt := if p.CreatedAt.IsZero then now else p.CreatedAt
      UpdatedAt := if p.UpdatedAt.IsZero then now else p.UpdatedAt }
  updated p now := { p with UpdatedAt := now }

namespace UserRepository

/-- Go `UserRepository.Create`. -/
def Create (u : user.User) (now : Time) (db : gorm.DB) : Option Err × gorm.DB :=
  match db.fault with
  | some msg => (some (.Driver msg), db)
  | none =>
    let r := gorm.Create userSchema db.users u now
    (r.1, { db with users := r.2 })

/-- Go `UserRepository.FindByUsername`. -/
def FindByUsername (username : String) (db : gorm.DB) : Except Err user.User :=
  match db.fault with
  | some msg => .error (.Driver msg)
  | none => gorm.First userSchema db.users (fun u => u.Username == username)

/-- Go `UserRepository.FindByID`. -/
def FindByID (id : Nat) (db : gorm.DB) : Except Err user.User :=
  match db.fault with
  | some msg => .error (.Driver msg)
  | none => gorm.First userSchema db.users (fun u => u.ID == id)

/-- Go `UserRepository.FindByEmail`. -/
def FindByEmail (email : String) (db : gorm.DB) : Except Err user.User :=
  match db.fault with
  | some msg => .error (.Driver msg)
  | none => gorm.First userSchema db.users (fun u => u.Email == email)

/-- Go `UserRepository.Update`. -/
def Update (u : user.User) (now : Time) (db : gorm.DB) : Option Err × gorm.DB :=
  match db.fault with
  | some msg => (some (.Driver msg), db)
  | none =>
    let r := gorm.Save userSchema db.users u now
    (r.1, { db with users := r.2 })

/-- Go `UserRepository.Delete`. -/
def Delete (id : Nat) (db : gorm.DB) : Option Err × gorm.DB :=
  match db.fault with
  | some msg => (some (.Driver msg), db)
  | none =>
    let r := gorm.Delete userSchema db.users id
    (r.1, { db with users := r.2 })

end UserRepository

/-- Go `postgres.NewUserRepository`: the implementation of `user.Repository`. -/
def NewUserRepository : user.Repository gorm.DB where
  Create := UserRepository.Create
  FindByID := UserRepository.FindByID
  FindByUsername := UserRepository.FindByUsername
  FindByEmail := UserRepository.FindByEmail
  Update := UserRepository.Update
  Delete := UserRepository.Delete

namespace PostRepository

/-- Go `PostRepository.FindByID`. -/
def FindByID (id : Nat) (db : gorm.DB) : Except Err post.Post :=
  match db.fault with
  | some msg => .error (.Driver msg)
  | none =>
    match gorm.First postSchema db.posts (fun p => p.ID == id) with
    | .error err => if err = .ErrRecordNotFound then .error .ErrPostNotFound else .error err
    | .ok p => .ok p

/-- Go `PostRepository.Create`. -/
def Create (p : post.Post) (now : Time) (db : gorm.DB) : Option Err × gorm.DB :=
  match db.fault with
  | some msg => (some (.Driver msg), db)
  | none =>
    let r := gorm.Create postSchema db.posts p now
    (r.1, { db with posts := r.2 })

/-- Go `PostRepository.Update`. -/
def Update (p : post.Post) (now : Time) (db : gorm.DB) : Option Err × gorm.DB :=
  match db.fault with
  | some msg => (some (.Driver msg), db)
  | none =>
    let r := gorm.Save postSchema db.posts p now
    (r.1, { db with posts := r.2 })

/-- Go `PostRepository.Delete`. -/
def Delete (id : Nat) (db : gorm.DB) : Option Err × gorm.DB :=
  match db.fault with
  | some msg => (some (.Driver msg), db)
  | none =>
    let r := gorm.Delete postSchema db.posts id
    (r.1, { db with posts := r.2 })

end PostRepository

/-- Go `postgres.NewPostRepository`: the implementation of `post.Repository`. -/
def NewPostRepository : post.Repository gorm.DB where
  FindByID := PostRepository.FindByID
  Create := PostRepository.Create
  Update := PostRepository.Update
  Delete := PostRepository.Delete

end postgres

/-! ## internal/infrastructure/http/middlewares/auth_middleware.go -/

namespace middlewares

/-- The value of the `Authorization` header as `c.GetHeader` returns it: empty (also for a
missing header), the scheme `Bearer ` followed by a token string, or a string without that
scheme, which is then the token string itself. -/
inductive AuthHeader where
  | missing
  | bearer (token : jwt.TokenString)
  | plain (token : jwt.TokenString)
  deriving DecidableEq, Repr

/-- The keys that the middleware sets on the request context. -/
structure Keys where
  userID : Option Nat := none
  passwordChangedAt : Option Time := none
  deriving DecidableEq, Repr

/-- What the middleware does with a request: it answers with a status and an error message and
aborts, or it calls the next handler with the keys set. -/
inductive Outcome where
  | Abort (status : Nat) (error : String)
  | Next (keys : Keys)
  deriving DecidableEq, Repr

/-- Go `http.StatusUnauthorized`. -/
def StatusUnauthorized : Nat := 401

/-- The message for a missing header. -/
def errMissingAuthHeader : String := "Authorization header is required"
/-- The message for a token that does not validate. -/
def errInvalidToken : String := "Invalid or expired token"

/-- Go `extractToken`: the header without the scheme. -/
def extractToken (authHeader : AuthHeader) : jwt.TokenString :=
  match authHeader with
  | .bearer token => token
  | .plain token => token
  | .missing => .malformed

/-- Go `AuthMiddleware(jwtService, userService)` applied to a request with the given
`Authorization` header, at the clock reading `now`, over the store `st`. -/
def AuthMiddleware {σ : Type} (jwtService : auth.JWTService) (userService : user.Service σ)
    (authHeader : AuthHeader) (now : Time) (st : σ) : Outcome :=
  if authHeader = .missing then .Abort StatusUnauthorized errMissingAuthHeader
  else
    let tokenString := extractToken authHeader
    match jwtService.ValidateToken tokenString now with
    | .error _ => .Abort StatusUnauthorized errInvalidToken
    | .ok claims =>
      match userService.GetUserProfile claims.UserID st with
      | .error _ => .Abort StatusUnauthorized "User not found"
      | .ok currentUser =>
        if claims.PasswordChangedAt.Before currentUser.PasswordChangedAt then
          .Abort StatusUnauthorized "Token expired due to password change"
        else
          .Next { userID := some claims.UserID
                  passwordChangedAt := some claims.PasswordChangedAt }

end middlewares

/-! ## cmd/api/main.go: the wiring of the services -/

namespace api

/-- The token service as `main` builds it from the configured secret. -/
def jwtService (secret : String) : auth.JWTService := auth.NewJWTService secret

/-- The user service as `main` wires it: the PostgreSQL repository and the token service. -/
def userService (secret : String) : user.Service gorm.DB :=
  user.NewService postgres.NewUserRepository (jwtService secret)

/-- The post service as `main` wires it: the PostgreSQL repository. -/
def postService : post.Service gorm.DB :=
  post.NewService postgres.NewPostRepository

end api

/-! ## Sample data for the concrete instances -/

namespace sample

/-- A stored, active user whose password is `correct horse`. -/
def alice : user.User :=
  { ID := 1, Username := "alice", Email := "alice@example.com",
    PasswordHash := .hashed 10 7 "correct horse", PasswordChangedAt := ⟨1000⟩,
    CreatedAt := ⟨1000⟩, UpdatedAt := ⟨1000⟩, IsActive := true }

/-- A post of `alice`. -/
def hello : post.Post :=
  { ID := 1, Title := "Hello", Content := "A first post.", UserID := 1,
    CreatedAt := ⟨1500⟩, UpdatedAt := ⟨1500⟩ }

/-- A store that holds `alice` and her post. -/
def db : gorm.DB :=
  { users := { rows := [alice], seq := 1 }, posts := { rows := [hello], seq := 1 } }

/-- The login of `alice` with her password. -/
def login : user.LoginInput := { Username := "alice", Password := "correct horse" }

/-- The store after `alice` logged in at the instant 2000. -/
def dbAfterLogin : gorm.DB :=
  { users := { rows := [{ alice with LastLogin := some ⟨2000⟩, UpdatedAt := ⟨2000⟩ }], seq := 1 }
    posts := { rows := [hello], seq := 1 } }

/-- The token that the login of `alice` at the instant 2000 returns under the secret `k`. -/
def token : jwt.TokenString :=
  auth.signedHS256 "k" (auth.issuedClaims 1 ⟨1000⟩ ⟨2000⟩ ⟨2000⟩)

/-- A password change of `alice`. -/
def change : user.ChangePasswordInput :=
  { CurrentPassword := "correct horse", NewPassword := "battery staple" }

/-- The store after `alice` changed her password at the instant 5000 (with the salt 11). -/
def dbAfterChange : gorm.DB :=
  { users :=
      { rows :=
          [{ alice with
              LastLogin := some ⟨2000⟩, UpdatedAt := ⟨5000⟩
              PasswordHash := .hashed 10 11 "battery staple", PasswordChangedAt := ⟨5000⟩ }]
        seq := 1 }
    posts := { rows := [hello], seq := 1 } }

/-- A stored user whose account is not active; the password is `tr0ub4dor`. -/
def carol : user.User :=
  { ID := 2, Username := "carol", Email := "carol@example.com",
    PasswordHash := .hashed 10 3 "tr0ub4dor", PasswordChangedAt := ⟨1200⟩,
    CreatedAt := ⟨1200⟩, UpdatedAt := ⟨1200⟩, IsActive := false }

/-- A store that holds `alice`, `carol` and the post of `alice`. -/
def dbTwo : gorm.DB :=
  { users := { rows := [alice, carol], seq := 2 }, posts := { rows := [hello], seq := 1 } }

/-- An update of the post of `alice` that names another owner and other time stamps. -/
def rewrite : post.Post :=
  { ID := 1, Title := "Hello again", Content := "A second version.", UserID := 7,
    CreatedAt := ⟨9⟩, UpdatedAt := ⟨9⟩ }

/-- The store after `alice` saved the update at the instant 4000. -/
def dbAfterRewrite : gorm.DB :=
  { users := { rows := [alice], seq := 1 }
    posts :=
      { rows := [{ hello with Title := "Hello again", Content := "A second version."
                              UpdatedAt := ⟨4000⟩ }]
        seq := 1 } }

end sample

/-! # Theorems -/

/-! ## The token service -/

section TokenService

open auth jwt

theorem GetSigningMethod_alg {a : String} {m : SigningMethod}
    (h : GetSigningMethod a = some m) : m.Alg = a := by
  unfold GetSigningMethod at h
  have := List.find?_some h
  simpa using this

theorem Alg_HS256 : (SigningMethod.HMAC .SHA256).Alg = "HS256" := by decide

/-- The bits that claim validation sets, by case. -/
theorem Valid_eq (c : StandardClaims) (now : Int) :
    c.Valid now =
      (if verifyExp c.ExpiresAt now false then 0 else 16) +
      (if verifyIat c.IssuedAt now false then 0 else 32) +
      (if verifyNbf c.NotBefore now false then 0 else 128) := by
  unfold StandardClaims.Valid
  cases verifyExp c.ExpiresAt now false <;> cases verifyIat c.IssuedAt now false <;>
    cases verifyNbf c.NotBefore now false <;> decide

/-- Parsing a token that carries the MAC of an HMAC method under the service key: only claim
validation can fail. -/
theorem ParseWithClaims_signed (s : JWTService) (h : HashFn) (c : Claims) (now : Int) :
    ParseWithClaims (.compact (some (SigningMethod.HMAC h).Alg) c
        (.mac h s.secretKey (some (SigningMethod.HMAC h).Alg) c)) s.keyFunc now =
      if c.toStandardClaims.Valid now = 0 then
        .ok { Method := .HMAC h, alg := some (SigningMethod.HMAC h).Alg, Claims := c,
              Valid := true }
      else .error (c.toStandardClaims.Valid now) := by
  have hm : GetSigningMethod (SigningMethod.HMAC h).Alg = some (.HMAC h) := by
    cases h <;> decide
  simp [ParseWithClaims, ParseUnverified, hm, JWTService.keyFunc, SigningMethod.Verify,
    TokenString.signature]

/-- A time that marshals unmarshals to itself. -/
theorem UnmarshalTime_MarshalTime {t : Time} {w : json.Timestamp}
    (h : json.MarshalTime t = .ok w) : json.UnmarshalTime w = some t := by
  unfold json.MarshalTime at h
  split at h
  · cases h
  · rename_i hr
    simp only [Except.ok.injEq] at h
    subst h
    unfold json.UnmarshalTime
    simp only [json.firstDay, json.lastDay, Time.Unix] at hr ⊢
    rw [if_pos (by omega)]
    congr 1
    cases t with
    | mk ns =>
      simp only [Time.mk.injEq]
      omega

/-- Claims that marshal unmarshal to themselves. -/
theorem Unmarshal_Marshal {c : Claims} {o : json.ClaimsObject}
    (h : json.Marshal c = .ok o) : json.Unmarshal o = some c := by
  unfold json.Marshal at h
  cases hm : json.MarshalTime c.PasswordChangedAt with
  | error e => simp [hm] at h
  | ok w =>
    simp only [hm, Except.ok.injEq] at h
    subst h
    unfold json.Unmarshal
    simp only [UnmarshalTime_MarshalTime hm]

/-- Claims marshal exactly when the year of the epoch is within 0..9999. -/
theorem Marshal_of_YearInRange {c : Claims} (h : json.YearInRange c.PasswordChangedAt) :
    ∃ o, json.Marshal c = .ok o := by
  unfold json.Marshal json.MarshalTime
  unfold json.YearInRange at h
  rw [if_neg (by omega)]
  exact ⟨_, rfl⟩

theorem Marshal_of_not_YearInRange {c : Claims} (h : ¬ json.YearInRange c.PasswordChangedAt) :
    json.Marshal c = .error (.New "Time.MarshalJSON: year outside of range [0,9999]") := by
  unfold json.Marshal json.MarshalTime
  unfold json.YearInRange at h
  rw [if_pos (by omega)]

/-- Signing with HS256 claims that marshal gives the token that carries them. -/
theorem SignedString_of_Marshal {c : Claims} {o : json.ClaimsObject} (key : String)
    (h : json.Marshal c = .ok o) :
    SignedString (.HMAC .SHA256) c key = .ok (signedHS256 key c) := by
  unfold SignedString
  rw [h]
  simp only [Unmarshal_Marshal h, SigningMethod.Sign, Alg_HS256]
  rfl

/-- With an epoch whose year is within 0..9999, `GenerateToken` returns the token that carries
the claims of its struct literal. -/
theorem GenerateToken_eq (s : JWTService) (userID : Nat) (epoch now1 now2 : Time)
    (h : json.YearInRange epoch) :
    s.GenerateToken userID epoch now1 now2 =
      .ok (signedHS256 s.secretKey (issuedClaims userID epoch now1 now2)) := by
  obtain ⟨o, ho⟩ := @Marshal_of_YearInRange (issuedClaims userID epoch now1 now2) h
  exact SignedString_of_Marshal s.secretKey ho

/-- With an epoch whose year is outside 0..9999, `GenerateToken` returns the error of the
marshalling and no token. -/
theorem GenerateToken_error (s : JWTService) (userID : Nat) (epoch now1 now2 : Time)
    (h : ¬ json.YearInRange epoch) :
    s.GenerateToken userID epoch now1 now2 =
      .error (.New "Time.MarshalJSON: year outside of range [0,9999]") := by
  unfold JWTService.GenerateToken SignedString
  have hm := @Marshal_of_not_YearInRange (issuedClaims userID epoch now1 now2) h
  unfold issuedClaims at hm
  simp only [hm]

/-- A token that `GenerateToken` returns carries the claims of its struct literal, and the
year of its epoch is within 0..9999. -/
theorem GenerateToken_ok {s : JWTService} {userID : Nat} {epoch now1 now2 : Time}
    {tok : TokenString} (h : s.GenerateToken userID epoch now1 now2 = .ok tok) :
    json.YearInRange epoch ∧
      tok = signedHS256 s.secretKey (issuedClaims userID epoch now1 now2) := by
  by_cases hy : json.YearInRange epoch
  · rw [GenerateToken_eq s userID epoch now1 now2 hy] at h
    exact ⟨hy, (Except.ok.inj h).symm⟩
  · rw [GenerateToken_error s userID epoch now1 now2 hy] at h
    cases h

theorem Unix_Add_TokenExpireDuration (now : Time) :
    (now.Add TokenExpireDuration).Unix = now.Unix + 86400 := by
  simp only [Time.Add, Time.Unix, TokenExpireDuration, Time.Hour]
  omega

theorem ParseToken_of_error {s : JWTService} {ts : TokenString} {now : Time} {ve : Nat}
    (h : ParseWithClaims ts s.keyFunc now.Unix = .error ve) :
    s.ParseToken ts now =
      if ve &&& ValidationErrorMalformed ≠ 0 then .error .ErrInvalidToken
      else if ve &&& (ValidationErrorExpired ||| ValidationErrorNotValidYet) ≠ 0 then
        .error .ErrExpiredToken
      else .error (.Validation ve) := by
  unfold JWTService.ParseToken
  rw [h]

theorem ParseToken_of_ok {s : JWTService} {ts : TokenString} {now : Time} {token : Token}
    (h : ParseWithClaims ts s.keyFunc now.Unix = .ok token) (hv : token.Valid = true) :
    s.ParseToken ts now = .ok token.Claims := by
  unfold JWTService.ParseToken
  rw [h]
  simp [hv]

/-- A token passes claim validation at every second from its `IssuedAt` to its
`ExpiresAt`. -/
theorem issuedClaims_Valid (userID : Nat) (epoch now1 now2 t : Time)
    (h1 : (issuedClaims userID epoch now1 now2).IssuedAt ≤ t.Unix)
    (h2 : t.Unix ≤ (issuedClaims userID epoch now1 now2).ExpiresAt) :
    (issuedClaims userID epoch now1 now2).toStandardClaims.Valid t.Unix = 0 := by
  rw [Valid_eq]
  have e1 : verifyExp (issuedClaims userID epoch now1 now2).ExpiresAt t.Unix false = true := by
    unfold verifyExp
    split <;> simp [h2]
  have e2 : verifyIat (issuedClaims userID epoch now1 now2).IssuedAt t.Unix false = true := by
    unfold verifyIat
    split <;> simp [h1]
  have e3 : verifyNbf (issuedClaims userID epoch now1 now2).NotBefore t.Unix false = true := by
    show verifyNbf 0 t.Unix false = true
    simp [verifyNbf]
  simp [e1, e2, e3]

/-- A token validates, with its claims, from the second of its `IssuedAt` to the second of its
`ExpiresAt`. -/
theorem ValidateToken_issued (s : JWTService) (userID : Nat) (epoch now1 now2 t : Time)
    (h1 : (issuedClaims userID epoch now1 now2).IssuedAt ≤ t.Unix)
    (h2 : t.Unix ≤ (issuedClaims userID epoch now1 now2).ExpiresAt) :
    s.ValidateToken (signedHS256 s.secretKey (issuedClaims userID epoch now1 now2)) t =
      .ok (issuedClaims userID epoch now1 now2) := by
  have h := ParseWithClaims_signed s .SHA256 (issuedClaims userID epoch now1 now2) t.Unix
  rw [Alg_HS256, issuedClaims_Valid userID epoch now1 now2 t h1 h2] at h
  simp only [if_true] at h
  exact ParseToken_of_ok h rfl

/-- C7 (counterexample). For the epoch 10000-01-01T00:00:00Z, whose year is outside 0..9999,
`GenerateToken` returns the error of the JSON marshalling and no token to validate. -/
theorem GenerateToken_fails_for_year_10000 :
    (NewJWTService "k").GenerateToken 1 ⟨253402300800 * 1000000000⟩ ⟨2000⟩ ⟨2000⟩ =
      .error (.New "Time.MarshalJSON: year outside of range [0,9999]") := by
  decide

/-- C7 (amended). For every service, user id, clock reading, and epoch whose year is within
0..9999: `GenerateToken` (both of its clock reads at that reading) returns a token, and
`ValidateToken` on that token at the same clock reading returns claims whose `UserID` and
`PasswordChangedAt` are the user id and the epoch that were passed in. -/
theorem ValidateToken_GenerateToken_roundtrip (s : JWTService) (userID : Nat)
    (epoch now : Time) (hy : json.YearInRange epoch) :
    ∃ tok claims, s.GenerateToken userID epoch now now = .ok tok ∧
      s.ValidateToken tok now = .ok claims ∧
      claims.UserID = userID ∧ claims.PasswordChangedAt = epoch := by
  refine ⟨_, issuedClaims userID epoch now now, GenerateToken_eq s userID epoch now now hy,
    ValidateToken_issued s userID epoch now now now (le_refl _) ?_, rfl, rfl⟩
  show now.Unix ≤ (now.Add TokenExpireDuration).Unix
  rw [Unix_Add_TokenExpireDuration]
  omega

/-- C7 (witness). The token of user 1 with the epoch 1000, issued and validated at the
instant 2000. -/
theorem ValidateToken_GenerateToken_roundtrip_witness :
    json.YearInRange ⟨1000⟩ ∧
      (NewJWTService "k").GenerateToken 1 ⟨1000⟩ ⟨2000⟩ ⟨2000⟩ =
        .ok (signedHS256 "k" (issuedClaims 1 ⟨1000⟩ ⟨2000⟩ ⟨2000⟩)) ∧
      (NewJWTService "k").ValidateToken (signedHS256 "k" (issuedClaims 1 ⟨1000⟩ ⟨2000⟩ ⟨2000⟩))
          ⟨2000⟩ =
        .ok (issuedClaims 1 ⟨1000⟩ ⟨2000⟩ ⟨2000⟩) := by
  obtain ⟨tok, claims, hgen, hval, _, _⟩ :=
    ValidateToken_GenerateToken_roundtrip (NewJWTService "k") 1 ⟨1000⟩ ⟨2000⟩ (by decide)
  have hg : (NewJWTService "k").GenerateToken 1 ⟨1000⟩ ⟨2000⟩ ⟨2000⟩ =
      .ok (signedHS256 "k" (issuedClaims 1 ⟨1000⟩ ⟨2000⟩ ⟨2000⟩)) := by decide
  rw [hg] at hgen
  cases hgen
  exact ⟨by decide, hg, by decide⟩

/-- C8 (the code at the failing input). On a service built with the empty secret,
`GenerateToken` never returns `ErrNoSecretKey`, for every user id, epoch and clock readings:
whenever the claims marshal, it returns a token signed with the empty key. -/
theorem GenerateToken_empty_secret_signs (userID : Nat) (epoch now1 now2 : Time) :
    (NewJWTService "").GenerateToken userID epoch now1 now2 ≠ .error .ErrNoSecretKey ∧
      (json.YearInRange epoch →
        (NewJWTService "").GenerateToken userID epoch now1 now2 =
          .ok (signedHS256 "" (issuedClaims userID epoch now1 now2))) := by
  refine ⟨?_, GenerateToken_eq (NewJWTService "") userID epoch now1 now2⟩
  by_cases hy : json.YearInRange epoch
  · rw [GenerateToken_eq (NewJWTService "") userID epoch now1 now2 hy]
    simp
  · rw [GenerateToken_error (NewJWTService "") userID epoch now1 now2 hy]
    decide

/-- C9 (counterexample). A token whose header presents HS384, an algorithm other than HS256,
and that carries the HS384 MAC under the service key, is accepted by `ParseToken`. -/
theorem ParseToken_accepts_HS384 :
    (some "HS384" : Option String) ≠ some "HS256" ∧
      (NewJWTService "k").ParseToken
          (.compact (some "HS384") (issuedClaims 1 ⟨0⟩ ⟨0⟩ ⟨0⟩)
            (.mac .SHA384 "k" (some "HS384") (issuedClaims 1 ⟨0⟩ ⟨0⟩ ⟨0⟩))) ⟨0⟩ =
        .ok (issuedClaims 1 ⟨0⟩ ⟨0⟩ ⟨0⟩) := by
  decide

/-- C9 (amended). `ParseToken` rejects every token whose header presents an algorithm
outside the HMAC family HS256, HS384, HS512 (or none at all): the key function supplies the
secret for every HMAC method and returns an error for any other method. -/
theorem ParseToken_rejects_non_HMAC (s : JWTService) (alg : Option String) (claims : Claims)
    (sig : Signature) (now : Time)
    (h : alg ≠ some "HS256" ∧ alg ≠ some "HS384" ∧ alg ≠ some "HS512") :
    s.ParseToken (.compact alg claims sig) now =
        .error (.Validation ValidationErrorUnverifiable) ∧
      (∀ token : Token, (∃ hf, token.Method = .HMAC hf) → s.keyFunc token = .ok s.secretKey) ∧
      (∀ token : Token, (¬ ∃ hf, token.Method = .HMAC hf) →
        s.keyFunc token = .error (.New "unexpected signing method")) := by
  refine ⟨?_, ?_, ?_⟩
  · have hp : ParseWithClaims (.compact alg claims sig) s.keyFunc now.Unix =
        .error ValidationErrorUnverifiable := by
      unfold ParseWithClaims ParseUnverified
      cases alg with
      | none => rfl
      | some a =>
        cases hm : GetSigningMethod a with
        | none => simp [hm]
        | some m =>
          have ha := GetSigningMethod_alg hm
          cases m with
          | HMAC hf =>
            exfalso
            subst ha
            cases hf
            · exact h.1 (by decide)
            · exact h.2.1 (by decide)
            · exact h.2.2 (by decide)
          | _ => simp [hm, JWTService.keyFunc]
    rw [ParseToken_of_error hp]
    decide
  · rintro token ⟨hf, hm⟩
    simp [JWTService.keyFunc, hm]
  · intro token hm
    unfold JWTService.keyFunc
    split
    · rename_i hf heq
      exact absurd ⟨hf, heq⟩ hm
    · rfl

/-- C9 (witness). A token presenting the algorithm `none` is rejected. -/
theorem ParseToken_rejects_non_HMAC_witness :
    ((some "none" : Option String) ≠ some "HS256" ∧
        (some "none" : Option String) ≠ some "HS384" ∧
        (some "none" : Option String) ≠ some "HS512") ∧
      (NewJWTService "k").ParseToken
          (.compact (some "none") (issuedClaims 1 ⟨0⟩ ⟨0⟩ ⟨0⟩) (.bytes "")) ⟨0⟩ =
        .error (.Validation ValidationErrorUnverifiable) :=
  ⟨by decide,
    (ParseToken_rejects_non_HMAC (NewJWTService "k") (some "none") (issuedClaims 1 ⟨0⟩ ⟨0⟩ ⟨0⟩)
      (.bytes "") ⟨0⟩ (by decide)).1⟩

/-- The error bits that parsing under the key function of the service returns never combine
the malformed bit with another bit. -/
theorem ParseWithClaims_error_bits {s : JWTService} {ts : TokenString} {now : Int} {ve : Nat}
    (h : ParseWithClaims ts s.keyFunc now = .error ve) :
    ve = ValidationErrorMalformed ∨ ve &&& ValidationErrorMalformed = 0 := by
  unfold ParseWithClaims ParseUnverified at h
  cases ts with
  | malformed =>
    simp at h
    exact Or.inl h.symm
  | compact alg c sig =>
    right
    cases alg with
    | none =>
      simp at h
      subst h
      decide
    | some a =>
      cases hm : GetSigningMethod a with
      | none =>
        simp [hm] at h
        subst h
        decide
      | some m =>
        cases m with
        | HMAC hf =>
          simp only [hm, JWTService.keyFunc] at h
          split at h
          · simp at h
          · simp only [Except.error.injEq] at h
            subst h
            rw [Valid_eq]
            cases verifyExp c.ExpiresAt now false <;> cases verifyIat c.IssuedAt now false <;>
              cases verifyNbf c.NotBefore now false <;>
              cases SigningMethod.Verify (.HMAC hf) (some a) c
                (TokenString.compact (some a) c sig).signature s.secretKey <;>
              dsimp only <;> decide
        | _ =>
          simp [hm, JWTService.keyFunc] at h
          subst h
          decide

/-- A token whose `ExpiresAt` is not 0 fails claim validation with the expired bit, and
without the not-valid-yet bit, at every second after its `ExpiresAt`. -/
theorem issuedClaims_Valid_expired (userID : Nat) (epoch now1 now2 t : Time)
    (h0 : (issuedClaims userID epoch now1 now2).ExpiresAt ≠ 0)
    (h : (issuedClaims userID epoch now1 now2).ExpiresAt < t.Unix) :
    (issuedClaims userID epoch now1 now2).toStandardClaims.Valid t.Unix = 16 ∨
      (issuedClaims userID epoch now1 now2).toStandardClaims.Valid t.Unix = 48 := by
  rw [Valid_eq]
  have e1 : verifyExp (issuedClaims userID epoch now1 now2).ExpiresAt t.Unix false = false := by
    unfold verifyExp
    rw [if_neg h0]
    simp
    omega
  have e3 : verifyNbf (issuedClaims userID epoch now1 now2).NotBefore t.Unix false = true := by
    show verifyNbf 0 t.Unix false = true
    simp [verifyNbf]
  cases verifyIat (issuedClaims userID epoch now1 now2).IssuedAt t.Unix false <;>
    simp [e1, e3]

/-- A token whose `ExpiresAt` is not 0 is refused as expired at every second after its
`ExpiresAt`. -/
theorem ValidateToken_issued_expired (s : JWTService) (userID : Nat)
    (epoch now1 now2 t : Time)
    (h0 : (issuedClaims userID epoch now1 now2).ExpiresAt ≠ 0)
    (ht : (issuedClaims userID epoch now1 now2).ExpiresAt < t.Unix) :
    s.ValidateToken (signedHS256 s.secretKey (issuedClaims userID epoch now1 now2)) t =
      .error .ErrExpiredToken := by
  have h := ParseWithClaims_signed s .SHA256 (issuedClaims userID epoch now1 now2) t.Unix
  rw [Alg_HS256] at h
  unfold JWTService.ValidateToken
  rw [show signedHS256 s.secretKey (issuedClaims userID epoch now1 now2) =
    .compact (some "HS256") (issuedClaims userID epoch now1 now2)
      (.mac .SHA256 s.secretKey (some "HS256") (issuedClaims userID epoch now1 now2)) from rfl]
  rcases issuedClaims_Valid_expired userID epoch now1 now2 t h0 ht with hv | hv
  · rw [hv] at h
    simp only [OfNat.ofNat_ne_zero, if_false] at h
    rw [ParseToken_of_error h]
    decide
  · rw [hv] at h
    simp only [OfNat.ofNat_ne_zero, if_false] at h
    rw [ParseToken_of_error h]
    decide

/-- C10 (counterexample). With the first clock read at 0.999999999 s and the second at
1.000000000 s, the token has `ExpiresAt` 86400 and `IssuedAt` 1: `ExpiresAt` is not
`IssuedAt` plus 24 hours. And the token issued at the second -86400 has `ExpiresAt` 0, which
the library reads as no expiry: it still validates at the second 1000000000. -/
theorem GenerateToken_expiry_not_issuedAt_plus_24h :
    ((NewJWTService "k").GenerateToken 1 ⟨1000⟩ ⟨999999999⟩ ⟨1000000000⟩ =
        .ok (signedHS256 "k" (issuedClaims 1 ⟨1000⟩ ⟨999999999⟩ ⟨1000000000⟩)) ∧
      (issuedClaims 1 ⟨1000⟩ ⟨999999999⟩ ⟨1000000000⟩).ExpiresAt = 86400 ∧
      (issuedClaims 1 ⟨1000⟩ ⟨999999999⟩ ⟨1000000000⟩).IssuedAt = 1 ∧
      (issuedClaims 1 ⟨1000⟩ ⟨999999999⟩ ⟨1000000000⟩).ExpiresAt ≠
        (issuedClaims 1 ⟨1000⟩ ⟨999999999⟩ ⟨1000000000⟩).IssuedAt + 24 * 3600) ∧
      ((NewJWTService "k").GenerateToken 1 ⟨1000⟩ ⟨-86400 * 1000000000⟩
          ⟨-86400 * 1000000000⟩ =
        .ok (signedHS256 "k"
          (issuedClaims 1 ⟨1000⟩ ⟨-86400 * 1000000000⟩ ⟨-86400 * 1000000000⟩)) ∧
      (issuedClaims 1 ⟨1000⟩ ⟨-86400 * 1000000000⟩ ⟨-86400 * 1000000000⟩).ExpiresAt = 0 ∧
      (NewJWTService "k").ValidateToken
          (signedHS256 "k"
            (issuedClaims 1 ⟨1000⟩ ⟨-86400 * 1000000000⟩ ⟨-86400 * 1000000000⟩))
          ⟨1000000000 * 1000000000⟩ =
        .ok (issuedClaims 1 ⟨1000⟩ ⟨-86400 * 1000000000⟩ ⟨-86400 * 1000000000⟩)) := by
  decide

/-- C10 (amended). For every token that `GenerateToken` issues: its `ExpiresAt` is the Unix
second of the first clock read plus 24 hours and its `IssuedAt` is the Unix second of the
second clock read, so that `ExpiresAt` is `IssuedAt` plus 24 hours whenever both reads fall in
the same second; when `ExpiresAt` is not 0, `ValidateToken` on the token at every clock
reading whose Unix second is after `ExpiresAt` fails with `ErrExpiredToken`; and for every
token string, whenever the validation error of the library carries the expired bit,
`ParseToken` returns `ErrExpiredToken`. -/
theorem GenerateToken_expiry (s : JWTService) (userID : Nat) (epoch now1 now2 : Time)
    (tok : TokenString) (hgen : s.GenerateToken userID epoch now1 now2 = .ok tok) :
    ∃ claims, tok.claimsOf = some claims ∧
      claims.ExpiresAt = now1.Unix + 24 * 3600 ∧
      claims.IssuedAt = now2.Unix ∧
      (now1.Unix = now2.Unix → claims.ExpiresAt = claims.IssuedAt + 24 * 3600) ∧
      (∀ t : Time, claims.ExpiresAt ≠ 0 → claims.ExpiresAt < t.Unix →
        s.ValidateToken tok t = .error .ErrExpiredToken) ∧
      (∀ (ts : TokenString) (t : Time) (ve : Nat),
        ParseWithClaims ts s.keyFunc t.Unix = .error ve →
        ve &&& ValidationErrorExpired ≠ 0 → s.ParseToken ts t = .error .ErrExpiredToken) := by
  obtain ⟨_, htok⟩ := GenerateToken_ok hgen
  subst htok
  have hx : (issuedClaims userID epoch now1 now2).ExpiresAt = now1.Unix + 24 * 3600 :=
    Unix_Add_TokenExpireDuration now1
  refine ⟨issuedClaims userID epoch now1 now2, rfl, hx, rfl, ?_, ?_, ?_⟩
  · intro h12
    rw [hx, h12]
    rfl
  · intro t h0 ht
    exact ValidateToken_issued_expired s userID epoch now1 now2 t h0 ht
  · intro ts t ve hp hexp
    rw [ParseToken_of_error hp]
    rcases ParseWithClaims_error_bits hp with h1 | h1
    · subst h1
      exact absurd (by decide) hexp
    · have h2 : ve &&& (ValidationErrorExpired ||| ValidationErrorNotValidYet) ≠ 0 := by
        intro h3
        apply hexp
        have : ve &&& ValidationErrorExpired =
            (ve &&& (ValidationErrorExpired ||| ValidationErrorNotValidYet)) &&&
              ValidationErrorExpired := by
          rw [Nat.land_assoc]
          congr 1
        rw [this, h3]
        simp
      simp [h1, h2]

/-- C10 (witness). The token issued with both clock reads at the Unix epoch expires at the
second 86400; at the second 86401 `ValidateToken` fails with `ErrExpiredToken`. -/
theorem GenerateToken_expiry_witness :
    (NewJWTService "k").GenerateToken 1 ⟨5⟩ ⟨0⟩ ⟨0⟩ =
        .ok (signedHS256 "k" (issuedClaims 1 ⟨5⟩ ⟨0⟩ ⟨0⟩)) ∧
      (issuedClaims 1 ⟨5⟩ ⟨0⟩ ⟨0⟩).ExpiresAt = (issuedClaims 1 ⟨5⟩ ⟨0⟩ ⟨0⟩).IssuedAt + 24 * 3600 ∧
      (issuedClaims 1 ⟨5⟩ ⟨0⟩ ⟨0⟩).ExpiresAt ≠ 0 ∧
      (issuedClaims 1 ⟨5⟩ ⟨0⟩ ⟨0⟩).ExpiresAt < (Time.mk (86401 * 1000000000)).Unix ∧
      (NewJWTService "k").ValidateToken (signedHS256 "k" (issuedClaims 1 ⟨5⟩ ⟨0⟩ ⟨0⟩))
          ⟨86401 * 1000000000⟩ =
        .error .ErrExpiredToken := by
  have hg : (NewJWTService "k").GenerateToken 1 ⟨5⟩ ⟨0⟩ ⟨0⟩ =
      .ok (signedHS256 "k" (issuedClaims 1 ⟨5⟩ ⟨0⟩ ⟨0⟩)) := by decide
  obtain ⟨claims, hc, _, _, hsame, hval, _⟩ :=
    GenerateToken_expiry (NewJWTService "k") 1 ⟨5⟩ ⟨0⟩ ⟨0⟩ _ hg
  have hcl : claims = issuedClaims 1 ⟨5⟩ ⟨0⟩ ⟨0⟩ := (Option.some.inj hc).symm
  subst hcl
  exact ⟨hg, hsame rfl, by decide, by decide,
    hval ⟨86401 * 1000000000⟩ (by decide) (by decide)⟩

end TokenService

/-! ## The store -/

section Store

open gorm postgres user

theorem least_mem {α : Type} (key : α → Nat) :
    ∀ {l : List α} {r : α}, least key l = some r → r ∈ l
  | [], r, h => by simp [least] at h
  | x :: xs, r, h => by
    unfold least at h
    cases hxs : least key xs with
    | none =>
      simp [hxs] at h
      simp [h]
    | some b =>
      simp only [hxs] at h
      have hb := least_mem key hxs
      split at h
      · simp at h
        simp [h]
      · simp at h
        subst h
        simp [hb]

theorem least_eq_none {α : Type} (key : α → Nat) {l : List α} (h : least key l = none) :
    l = [] := by
  cases l with
  | nil => rfl
  | cons x xs =>
    unfold least at h
    cases hxs : least key xs with
    | none => simp [hxs] at h
    | some b =>
      simp only [hxs] at h
      split at h <;> simp at h

/-- A lookup that returns a row returns a row of the table that meets the condition. -/
theorem First_ok {α : Type} {sch : Schema α} {t : Table α} {cond : α → Bool} {r : α}
    (h : First sch t cond = .ok r) : r ∈ t.rows ∧ cond r = true := by
  unfold First at h
  cases hl : least sch.key (t.rows.filter cond) with
  | none => simp [hl] at h
  | some x =>
    simp [hl] at h
    subst h
    have := least_mem sch.key hl
    simpa using this

/-- A lookup finds a row when some row of the table meets the condition. -/
theorem First_of_exists {α : Type} (sch : Schema α) (t : Table α) (cond : α → Bool)
    (h : ∃ r ∈ t.rows, cond r = true) : ∃ r, First sch t cond = .ok r := by
  unfold First
  cases hl : least sch.key (t.rows.filter cond) with
  | none =>
    exfalso
    have := least_eq_none sch.key hl
    obtain ⟨r, hr, hc⟩ := h
    have hm : r ∈ t.rows.filter cond := by simp [hr, hc]
    rw [this] at hm
    cases hm
  | some x => exact ⟨x, rfl⟩

/-- A lookup returns `gorm.ErrRecordNotFound` when no row of the table meets the condition. -/
theorem First_of_forall {α : Type} (sch : Schema α) (t : Table α) (cond : α → Bool)
    (h : ∀ r ∈ t.rows, cond r = false) : First sch t cond = .error .ErrRecordNotFound := by
  unfold First
  have : t.rows.filter cond = [] := by
    simp only [List.filter_eq_nil_iff]
    intro r hr
    simp [h r hr]
  rw [this]
  rfl

theorem FindByUsername_ok {db : DB} {name : String} {u : User}
    (h : UserRepository.FindByUsername name db = .ok u) :
    u ∈ db.users.rows ∧ u.Username = name := by
  unfold UserRepository.FindByUsername at h
  split at h
  · cases h
  · have := First_ok h
    simpa using this

theorem FindByID_ok {db : DB} {id : Nat} {u : User}
    (h : UserRepository.FindByID id db = .ok u) :
    u ∈ db.users.rows ∧ u.ID = id := by
  unfold UserRepository.FindByID at h
  split at h
  · cases h
  · have := First_ok h
    simpa using this

/-- An insert of a user fails when a stored row has the same username. -/
theorem user_Create_clash {t : Table User} {v r : User} {now : Time}
    (hr : r ∈ t.rows) (hname : r.Username = v.Username) :
    (Create userSchema t v now).1 = some duplicateKey := by
  unfold Create
  dsimp only
  by_cases hz : userSchema.key v = 0
  · simp only [hz, if_true]
    split
    · rfl
    · rename_i hn
      exfalso
      apply hn
      rw [List.any_eq_true]
      exact ⟨r, hr, by simp [userSchema, hname]⟩
  · simp only [hz, if_false]
    split
    · rfl
    · rename_i hn
      exfalso
      apply hn
      rw [List.any_eq_true]
      exact ⟨r, hr, by simp [userSchema, hname]⟩

/-- A successful save of a user that shares its id and username with a stored row replaces
the rows with that id. -/
theorem user_Save_ok {t t' : Table User} {v r : User} {now : Time}
    (hr : r ∈ t.rows) (hid : r.ID = v.ID) (hname : r.Username = v.Username)
    (h : Save userSchema t v now = (none, t')) :
    t'.rows =
      t.rows.map (fun r' => if r'.ID = v.ID then { v with UpdatedAt := now } else r') := by
  unfold Save at h
  split at h
  · have hc := @user_Create_clash t v r now hr hname
    rw [h] at hc
    cases hc
  · dsimp only at h
    split at h
    · split at h
      · cases h
      · simp only [Prod.mk.injEq, true_and] at h
        subst h
        simp [userSchema]
    · rename_i hn
      exfalso
      apply hn
      rw [List.any_eq_true]
      exact ⟨r, hr, by simp [userSchema, hid]⟩

/-- After a successful `Update` of a user that shares its id and username with a stored row,
the lookup by that id returns the saved user. -/
theorem Update_then_FindByID {db db' : DB} {v r : User} {now : Time}
    (hr : r ∈ db.users.rows) (hid : r.ID = v.ID) (hname : r.Username = v.Username)
    (h : UserRepository.Update v now db = (none, db')) :
    UserRepository.FindByID v.ID db' = .ok { v with UpdatedAt := now } := by
  unfold UserRepository.Update at h
  cases hf : db.fault with
  | some msg => simp [hf] at h
  | none =>
    simp only [hf, Prod.mk.injEq] at h
    obtain ⟨h1, h2⟩ := h
    have hs : Save userSchema db.users v now = (none, (Save userSchema db.users v now).2) := by
      rw [← h1]
    have hrows := user_Save_ok hr hid hname hs
    subst h2
    unfold UserRepository.FindByID
    simp only []
    have hex : ∃ x ∈ (Save userSchema db.users v now).2.rows,
        (fun u : User => u.ID == v.ID) x = true := by
      refine ⟨{ v with UpdatedAt := now }, ?_, by simp⟩
      rw [hrows, List.mem_map]
      exact ⟨r, hr, by simp [hid]⟩
    obtain ⟨x, hx⟩ := First_of_exists userSchema _ _ hex
    rw [hx]
    obtain ⟨hm, hc2⟩ := First_ok hx
    rw [hrows, List.mem_map] at hm
    obtain ⟨y, _, hy⟩ := hm
    congr 1
    split at hy
    · exact hy.symm
    · rename_i hne
      exfalso
      subst hy
      apply hne
      simpa using hc2

end Store

/-! ## The auth gate -/

section Gate

open auth jwt middlewares

/-- The middleware on a request whose token validates and whose user is found: the epoch
comparison decides. -/
theorem AuthMiddleware_of_valid {σ : Type} (jwtService : JWTService)
    (userService : user.Service σ) (authHeader : AuthHeader) (now : Time) (st : σ)
    (claims : Claims) (u : user.User)
    (htok : jwtService.ValidateToken (extractToken authHeader) now = .ok claims)
    (huser : userService.GetUserProfile claims.UserID st = .ok u) :
    AuthMiddleware jwtService userService authHeader now st =
      if claims.PasswordChangedAt.ns < u.PasswordChangedAt.ns then
        .Abort StatusUnauthorized "Token expired due to password change"
      else
        .Next { userID := some claims.UserID
                passwordChangedAt := some claims.PasswordChangedAt } := by
  have hne : authHeader ≠ .missing := by
    intro h
    subst h
    have : jwtService.ValidateToken (extractToken .missing) now = .error .ErrInvalidToken := by
      rfl
    rw [this] at htok
    cases htok
  unfold AuthMiddleware
  simp only [hne, if_false, htok, huser, Time.Before]
  by_cases hlt : claims.PasswordChangedAt.ns < u.PasswordChangedAt.ns <;> simp [hlt]

/-- C1. For every request whose token validates (to `claims`) and whose claimed user is found
in the store (as `u`): the middleware answers 401 exactly when the epoch of the token is
strictly earlier than the `PasswordChangedAt` of `u`; otherwise (equal or later) it calls the
next handler with the user id and the epoch of the token set on the context. -/
theorem AuthMiddleware_epoch_gate {σ : Type} (jwtService : JWTService)
    (userService : user.Service σ) (authHeader : AuthHeader) (now : Time) (st : σ)
    (claims : Claims) (u : user.User)
    (htok : jwtService.ValidateToken (extractToken authHeader) now = .ok claims)
    (huser : userService.GetUserProfile claims.UserID st = .ok u) :
    ((∃ msg, AuthMiddleware jwtService userService authHeader now st =
          .Abort StatusUnauthorized msg) ↔
        claims.PasswordChangedAt.ns < u.PasswordChangedAt.ns) ∧
      (¬ claims.PasswordChangedAt.ns < u.PasswordChangedAt.ns →
        AuthMiddleware jwtService userService authHeader now st =
          .Next { userID := some claims.UserID
                  passwordChangedAt := some claims.PasswordChangedAt }) := by
  rw [AuthMiddleware_of_valid jwtService userService authHeader now st claims u htok huser]
  by_cases hlt : claims.PasswordChangedAt.ns < u.PasswordChangedAt.ns
  · simp [hlt]
  · simp [hlt]

/-- C1 (witness). The request of `alice` with her token, at the instant 3000, after her
login. -/
theorem AuthMiddleware_epoch_gate_witness :
    (api.jwtService "k").ValidateToken (extractToken (.bearer sample.token)) ⟨3000⟩ =
        .ok (issuedClaims 1 ⟨1000⟩ ⟨2000⟩ ⟨2000⟩) ∧
      (api.userService "k").GetUserProfile (issuedClaims 1 ⟨1000⟩ ⟨2000⟩ ⟨2000⟩).UserID
          sample.dbAfterLogin =
        .ok { sample.alice with LastLogin := some ⟨2000⟩, UpdatedAt := ⟨2000⟩ } ∧
      ((∃ msg, AuthMiddleware (api.jwtService "k") (api.userService "k")
            (.bearer sample.token) ⟨3000⟩ sample.dbAfterLogin =
            .Abort StatusUnauthorized msg) ↔
          (issuedClaims 1 ⟨1000⟩ ⟨2000⟩ ⟨2000⟩).PasswordChangedAt.ns <
            ({ sample.alice with LastLogin := some ⟨2000⟩, UpdatedAt := ⟨2000⟩ } :
              user.User).PasswordChangedAt.ns) ∧
      (¬ (issuedClaims 1 ⟨1000⟩ ⟨2000⟩ ⟨2000⟩).PasswordChangedAt.ns <
            ({ sample.alice with LastLogin := some ⟨2000⟩, UpdatedAt := ⟨2000⟩ } :
              user.User).PasswordChangedAt.ns →
        AuthMiddleware (api.jwtService "k") (api.userService "k")
            (.bearer sample.token) ⟨3000⟩ sample.dbAfterLogin =
          .Next { userID := some (issuedClaims 1 ⟨1000⟩ ⟨2000⟩ ⟨2000⟩).UserID
                  passwordChangedAt := some (issuedClaims 1 ⟨1000⟩ ⟨2000⟩ ⟨2000⟩).PasswordChangedAt }) :=
  ⟨by decide, by decide,
    AuthMiddleware_epoch_gate (api.jwtService "k") (api.userService "k")
      (.bearer sample.token) ⟨3000⟩ sample.dbAfterLogin (issuedClaims 1 ⟨1000⟩ ⟨2000⟩ ⟨2000⟩)
      { sample.alice with LastLogin := some ⟨2000⟩, UpdatedAt := ⟨2000⟩ }
      (by decide) (by decide)⟩

end Gate

/-! ## Posts -/

section Posts

open post

/-- C3. For every stored post `P` and every caller id `B` other than the owner of `P`:
`UpdatePost` with any submitted post for the id of `P` (any title, content and owner field)
and `DeletePost` return `ErrUnauthorized` and leave the store as it was (no repository write
happens), so that `P` is still the stored post. -/
theorem UpdatePost_DeletePost_other_user {σ : Type} (s : Service σ) (st : σ) (P p : Post)
    (B : Nat) (now : Time)
    (hP : s.repo.FindByID P.ID st = .ok P) (hB : B ≠ P.UserID) (hp : p.ID = P.ID) :
    s.UpdatePost p B now st = (some .ErrUnauthorized, st) ∧
      s.DeletePost P.ID B st = (some .ErrUnauthorized, st) ∧
      s.repo.FindByID P.ID (s.UpdatePost p B now st).2 = .ok P ∧
      s.repo.FindByID P.ID (s.DeletePost P.ID B st).2 = .ok P := by
  have ha : P.IsAuthor B = false := by
    simp [Post.IsAuthor]
    exact fun h => hB h.symm
  have h1 : s.UpdatePost p B now st = (some .ErrUnauthorized, st) := by
    unfold Service.UpdatePost
    rw [hp, hP]
    simp [ha]
  have h2 : s.DeletePost P.ID B st = (some .ErrUnauthorized, st) := by
    unfold Service.DeletePost
    rw [hP]
    simp [ha]
  refine ⟨h1, h2, ?_, ?_⟩
  · rw [h1]
    exact hP
  · rw [h2]
    exact hP

/-- C3 (witness). The post of `alice` (user 1) and the caller 2, who submits a valid title and
content and names itself as the owner. -/
theorem UpdatePost_DeletePost_other_user_witness :
    api.postService.repo.FindByID sample.hello.ID sample.db = .ok sample.hello ∧
      (2 : Nat) ≠ sample.hello.UserID ∧
      api.postService.UpdatePost
          { ID := 1, Title := "Taken over", Content := "Rewritten by another user.",
            UserID := 2 } 2 ⟨3000⟩ sample.db =
        (some .ErrUnauthorized, sample.db) ∧
      api.postService.DeletePost sample.hello.ID 2 sample.db =
        (some .ErrUnauthorized, sample.db) :=
  ⟨by decide, by decide,
    (UpdatePost_DeletePost_other_user api.postService sample.db sample.hello
      { ID := 1, Title := "Taken over", Content := "Rewritten by another user.", UserID := 2 }
      2 ⟨3000⟩ (by decide) (by decide) (by decide)).1,
    (UpdatePost_DeletePost_other_user api.postService sample.db sample.hello
      { ID := 1, Title := "Taken over", Content := "Rewritten by another user.", UserID := 2 }
      2 ⟨3000⟩ (by decide) (by decide) (by decide)).2.1⟩

end Posts

/-! ## Users -/

section Users

open user gorm postgres auth jwt middlewares

/-- C5. For every store (whose connection answers) and every registration input: if a stored
user has the username of the input, `Register` returns `ErrDuplicateUsername`; if no stored
user has the username and a stored user has the email of the input, it returns
`ErrDuplicateEmail`; in both cases the store is left as it was: no user is created. -/
theorem Register_duplicate (secret : String) (db : DB) (input : RegisterInput) (now : Time)
    (entropy : Option Nat) (hf : db.fault = none) :
    ((∃ u ∈ db.users.rows, u.Username = input.Username) →
        (api.userService secret).Register input now entropy db =
          (some .ErrDuplicateUsername, db)) ∧
      ((∀ u ∈ db.users.rows, u.Username ≠ input.Username) →
        (∃ u ∈ db.users.rows, u.Email = input.Email) →
        (api.userService secret).Register input now entropy db =
          (some .ErrDuplicateEmail, db)) := by
  constructor
  · rintro ⟨u, hu, hn⟩
    obtain ⟨r, hr⟩ := First_of_exists userSchema db.users
      (fun u => u.Username == input.Username) ⟨u, hu, by simp [hn]⟩
    have h1 : (api.userService secret).repo.FindByUsername input.Username db = .ok r := by
      show UserRepository.FindByUsername input.Username db = .ok r
      simp [UserRepository.FindByUsername, hf, hr]
    unfold Service.Register
    rw [h1]
  · rintro hfree ⟨u, hu, he⟩
    have h1 : (api.userService secret).repo.FindByUsername input.Username db =
        .error .ErrRecordNotFound := by
      show UserRepository.FindByUsername input.Username db = _
      simp only [UserRepository.FindByUsername, hf]
      apply First_of_forall
      intro r hr
      simp [hfree r hr]
    obtain ⟨r, hr⟩ := First_of_exists userSchema db.users
      (fun u => u.Email == input.Email) ⟨u, hu, by simp [he]⟩
    have h2 : (api.userService secret).repo.FindByEmail input.Email db = .ok r := by
      show UserRepository.FindByEmail input.Email db = .ok r
      simp [UserRepository.FindByEmail, hf, hr]
    unfold Service.Register
    rw [h1, h2]

/-- C5 (witness). A second registration under the username of `alice`, and one under a free
username with her email. -/
theorem Register_duplicate_witness :
    sample.db.fault = none ∧
      (∃ u ∈ sample.db.users.rows, u.Username = "alice") ∧
      (api.userService "k").Register
          { Username := "alice", Password := "another password", Email := "a2@example.com" }
          ⟨3000⟩ (some 9) sample.db =
        (some .ErrDuplicateUsername, sample.db) ∧
      (∀ u ∈ sample.db.users.rows, u.Username ≠ "alicia") ∧
      (∃ u ∈ sample.db.users.rows, u.Email = "alice@example.com") ∧
      (api.userService "k").Register
          { Username := "alicia", Password := "another password",
            Email := "alice@example.com" }
          ⟨3000⟩ (some 9) sample.db =
        (some .ErrDuplicateEmail, sample.db) :=
  ⟨rfl, ⟨sample.alice, by decide, rfl⟩,
    (Register_duplicate "k" sample.db
      { Username := "alice", Password := "another password", Email := "a2@example.com" }
      ⟨3000⟩ (some 9) rfl).1 ⟨sample.alice, by decide, rfl⟩,
    by decide, ⟨sample.alice, by decide, rfl⟩,
    (Register_duplicate "k" sample.db
      { Username := "alicia", Password := "another password", Email := "alice@example.com" }
      ⟨3000⟩ (some 9) rfl).2 (by decide) ⟨sample.alice, by decide, rfl⟩⟩

/-- C6 (the code at the failing input). The domain method `User.ChangePassword` sets the
digest it is given and leaves `PasswordChangedAt` as it was, for every user, digest and
clock reading. -/
theorem User_ChangePassword_keeps_epoch (u : User) (newPasswordHash : bcrypt.Digest)
    (now : Time) :
    (u.ChangePassword newPasswordHash now).PasswordHash = newPasswordHash ∧
      (u.ChangePassword newPasswordHash now).PasswordChangedAt = u.PasswordChangedAt := by
  simp [User.ChangePassword]

/-- C4 (the code at the failing input). Against the PostgreSQL repository, a login under the
username of the active user `alice` with a wrong password returns `ErrInvalidPassword`, and a
login under a username that no user has returns `gorm.ErrRecordNotFound`: the two errors
differ. -/
theorem Login_errors_differ :
    ((api.userService "k").Login { Username := "alice", Password := "wrong" }
          ⟨2000⟩ ⟨2000⟩ ⟨2000⟩ sample.db).1 = .error .ErrInvalidPassword ∧
      ((api.userService "k").Login { Username := "bob", Password := "wrong" }
          ⟨2000⟩ ⟨2000⟩ ⟨2000⟩ sample.db).1 = .error .ErrRecordNotFound ∧
      ((api.userService "k").Login { Username := "alice", Password := "wrong" }
          ⟨2000⟩ ⟨2000⟩ ⟨2000⟩ sample.db).1 ≠
        ((api.userService "k").Login { Username := "bob", Password := "wrong" }
          ⟨2000⟩ ⟨2000⟩ ⟨2000⟩ sample.db).1 := by
  decide

/-- What a successful login did: it found a user, saved the user with the login time, and
signed the claims for the id and the epoch of the user. -/
theorem Login_ok {secret : String} {db db1 : DB} {input : LoginInput} {now now1 now2 : Time}
    {tok : TokenString}
    (h : (api.userService secret).Login input now now1 now2 db = (.ok tok, db1)) :
    ∃ u, UserRepository.FindByUsername input.Username db = .ok u ∧
      UserRepository.Update (u.UpdateLastLogin now) now db = (none, db1) ∧
      tok = signedHS256 secret (issuedClaims u.ID u.PasswordChangedAt now1 now2) := by
  unfold Service.Login at h
  have hrepo : (api.userService secret).repo = NewUserRepository := rfl
  have hjwt : (api.userService secret).jwtService = NewJWTService secret := rfl
  rw [hrepo, hjwt] at h
  change (match UserRepository.FindByUsername input.Username db with
    | .error err => _
    | .ok u => _) = _ at h
  cases hfind : UserRepository.FindByUsername input.Username db with
  | error e =>
    rw [hfind] at h
    dsimp only at h
    split at h <;> cases h
  | ok u =>
    rw [hfind] at h
    dsimp only at h
    refine ⟨u, rfl, ?_⟩
    split at h
    · cases h
    · split at h
      · cases h
      · rcases hupd : NewUserRepository.Update (u.UpdateLastLogin now) now db with ⟨e, st1⟩
        rw [hupd] at h
        cases e with
        | some e => cases h
        | none =>
          dsimp only at h
          cases hgen : (NewJWTService secret).GenerateToken (u.UpdateLastLogin now).ID
              (u.UpdateLastLogin now).PasswordChangedAt now1 now2 with
          | error e =>
            rw [hgen] at h
            cases h
          | ok token =>
            rw [hgen] at h
            simp only [Prod.mk.injEq, Except.ok.injEq] at h
            obtain ⟨h1, h2⟩ := h
            subst h1 h2
            exact ⟨hupd, (GenerateToken_ok hgen).2⟩

/-- What a successful password change did: it found the user and saved it with the new digest
and the clock reading as the epoch. -/
theorem ChangePassword_ok {secret : String} {db db1 : DB} {userID : Nat}
    {input : ChangePasswordInput} {now : Time} {entropy : Option Nat}
    (h : (api.userService secret).ChangePassword userID input now entropy db = (none, db1)) :
    ∃ u hashed, UserRepository.FindByID userID db = .ok u ∧
      UserRepository.Update { u with PasswordHash := hashed, PasswordChangedAt := now } now db =
        (none, db1) := by
  unfold Service.ChangePassword at h
  have hrepo : (api.userService secret).repo = NewUserRepository := rfl
  rw [hrepo] at h
  change (match UserRepository.FindByID userID db with
    | .error err => _
    | .ok u => _) = _ at h
  cases hfind : UserRepository.FindByID userID db with
  | error e =>
    rw [hfind] at h
    cases h
  | ok u =>
    rw [hfind] at h
    dsimp only at h
    split at h
    · cases h
    · split at h
      · cases h
      · split at h
        · cases h
        · rename_i hashed _
          exact ⟨u, hashed, rfl, h⟩

/-- C2 (counterexample). `alice` logs in at the instant 2000 (every clock read of the login
at that instant) and her stored `PasswordChangedAt` stays as it was; a request with her token
90000 seconds after the epoch, past the expiry of the token, is answered 401. -/
theorem Login_token_refused_after_expiry :
    (api.userService "k").Login sample.login ⟨2000⟩ ⟨2000⟩ ⟨2000⟩ sample.db =
        (.ok sample.token, sample.dbAfterLogin) ∧
      (UserRepository.FindByID 1 sample.dbAfterLogin).map (fun u => u.PasswordChangedAt) =
        .ok sample.alice.PasswordChangedAt ∧
      AuthMiddleware (api.jwtService "k") (api.userService "k") (.bearer sample.token)
          ⟨90000 * 1000000000⟩ sample.dbAfterLogin =
        .Abort StatusUnauthorized errInvalidToken := by
  decide

/-- C2 (amended). For every token that `Login` issues for a user, with `claims` the claims of
the token: right after the login the store holds the user with the epoch of the token; a
request that carries the token, made from the second of issuance to the second of expiry, is
accepted by the middleware over every store in which the user has that same
`PasswordChangedAt`; and after a successful `ChangePassword` for the user, made at a clock
reading later than the stored `PasswordChangedAt` (itself not earlier than the epoch of the
token), such a request is answered 401 by the middleware although `ValidateToken` still
returns the same claims. -/
theorem Login_token_until_password_change (secret : String) (db db1 : DB)
    (input : LoginInput) (now now1 now2 : Time) (tok : TokenString)
    (hlogin : (api.userService secret).Login input now now1 now2 db = (.ok tok, db1)) :
    ∃ claims : Claims, tok.claimsOf = some claims ∧
      (∃ u1, UserRepository.FindByID claims.UserID db1 = .ok u1 ∧
        u1.PasswordChangedAt = claims.PasswordChangedAt) ∧
      (∀ (db2 : DB) (u2 : User) (t : Time),
        UserRepository.FindByID claims.UserID db2 = .ok u2 →
        u2.PasswordChangedAt = claims.PasswordChangedAt →
        claims.IssuedAt ≤ t.Unix → t.Unix ≤ claims.ExpiresAt →
        AuthMiddleware (api.jwtService secret) (api.userService secret) (.bearer tok) t db2 =
          .Next { userID := some claims.UserID
                  passwordChangedAt := some claims.PasswordChangedAt }) ∧
      (∀ (db2 db3 : DB) (u2 : User) (cp : ChangePasswordInput) (tc : Time)
          (entropy : Option Nat) (t : Time),
        UserRepository.FindByID claims.UserID db2 = .ok u2 →
        claims.PasswordChangedAt.ns ≤ u2.PasswordChangedAt.ns →
        u2.PasswordChangedAt.ns < tc.ns →
        (api.userService secret).ChangePassword claims.UserID cp tc entropy db2 = (none, db3) →
        claims.IssuedAt ≤ t.Unix → t.Unix ≤ claims.ExpiresAt →
        AuthMiddleware (api.jwtService secret) (api.userService secret) (.bearer tok) t db3 =
            .Abort StatusUnauthorized "Token expired due to password change" ∧
          (api.jwtService secret).ValidateToken tok t = .ok claims) := by
  obtain ⟨u, hfind, hupd, htok⟩ := Login_ok hlogin
  obtain ⟨hmem, hname⟩ := FindByUsername_ok hfind
  subst htok
  have hval : ∀ t : Time, (issuedClaims u.ID u.PasswordChangedAt now1 now2).IssuedAt ≤ t.Unix →
      t.Unix ≤ (issuedClaims u.ID u.PasswordChangedAt now1 now2).ExpiresAt →
      (api.jwtService secret).ValidateToken
          (signedHS256 secret (issuedClaims u.ID u.PasswordChangedAt now1 now2)) t =
        .ok (issuedClaims u.ID u.PasswordChangedAt now1 now2) := by
    intro t h1 h2
    exact ValidateToken_issued (api.jwtService secret) u.ID u.PasswordChangedAt now1 now2 t
      h1 h2
  refine ⟨issuedClaims u.ID u.PasswordChangedAt now1 now2, rfl, ?_, ?_, ?_⟩
  · exact ⟨_, Update_then_FindByID (v := u.UpdateLastLogin now) hmem rfl rfl hupd, rfl⟩
  · intro db2 u2 t hf2 hpca h1 h2
    rw [AuthMiddleware_of_valid (api.jwtService secret) (api.userService secret)
      (.bearer (signedHS256 secret (issuedClaims u.ID u.PasswordChangedAt now1 now2))) t db2
      (issuedClaims u.ID u.PasswordChangedAt now1 now2) u2 (hval t h1 h2) hf2]
    simp [hpca]
  · intro db2 db3 u2 cp tc entropy t hf2 hle hlt hcp h1 h2
    obtain ⟨u', hashed, hf', hupd'⟩ := ChangePassword_ok hcp
    rw [hf2] at hf'
    cases hf'
    obtain ⟨hmem2, hid2⟩ := FindByID_ok hf2
    have hf3 := Update_then_FindByID
      (v := { u2 with PasswordHash := hashed, PasswordChangedAt := tc }) hmem2 rfl rfl hupd'
    have hf3' : (api.userService secret).GetUserProfile
        (issuedClaims u.ID u.PasswordChangedAt now1 now2).UserID db3 =
        .ok { u2 with PasswordHash := hashed, PasswordChangedAt := tc, UpdatedAt := tc } := by
      rw [← hid2]
      exact hf3
    refine ⟨?_, hval t h1 h2⟩
    rw [AuthMiddleware_of_valid (api.jwtService secret) (api.userService secret)
      (.bearer (signedHS256 secret (issuedClaims u.ID u.PasswordChangedAt now1 now2))) t db3
      (issuedClaims u.ID u.PasswordChangedAt now1 now2) _ (hval t h1 h2) hf3']
    have : (issuedClaims u.ID u.PasswordChangedAt now1 now2).PasswordChangedAt.ns < tc.ns :=
      lt_of_le_of_lt hle hlt
    simp [this]

/-- C2 (witness). `alice` logs in at the instant 2000 (every clock read of the login at that
instant); her token is accepted at the instant 3000; she changes her password at the instant
5000; at the instant 6000 her token still validates and the middleware answers 401. -/
theorem Login_token_until_password_change_witness :
    (api.userService "k").Login sample.login ⟨2000⟩ ⟨2000⟩ ⟨2000⟩ sample.db =
        (.ok sample.token, sample.dbAfterLogin) ∧
      AuthMiddleware (api.jwtService "k") (api.userService "k") (.bearer sample.token) ⟨3000⟩
          sample.dbAfterLogin =
        .Next { userID := some 1, passwordChangedAt := some ⟨1000⟩ } ∧
      (api.userService "k").ChangePassword 1 sample.change ⟨5000⟩ (some 11)
          sample.dbAfterLogin =
        (none, sample.dbAfterChange) ∧
      AuthMiddleware (api.jwtService "k") (api.userService "k") (.bearer sample.token) ⟨6000⟩
          sample.dbAfterChange =
        .Abort StatusUnauthorized "Token expired due to password change" ∧
      (api.jwtService "k").ValidateToken sample.token ⟨6000⟩ =
        .ok (issuedClaims 1 ⟨1000⟩ ⟨2000⟩ ⟨2000⟩) := by
  have hlogin : (api.userService "k").Login sample.login ⟨2000⟩ ⟨2000⟩ ⟨2000⟩ sample.db =
      (.ok sample.token, sample.dbAfterLogin) := by decide
  have hchange : (api.userService "k").ChangePassword 1 sample.change ⟨5000⟩ (some 11)
      sample.dbAfterLogin = (none, sample.dbAfterChange) := by decide
  obtain ⟨claims, hc, _, hacc, hrej⟩ :=
    Login_token_until_password_change "k" sample.db sample.dbAfterLogin sample.login ⟨2000⟩
      ⟨2000⟩ ⟨2000⟩ sample.token hlogin
  have hcl : claims = issuedClaims 1 ⟨1000⟩ ⟨2000⟩ ⟨2000⟩ := by
    have h0 : sample.token.claimsOf = some (issuedClaims 1 ⟨1000⟩ ⟨2000⟩ ⟨2000⟩) := rfl
    rw [h0] at hc
    exact (Option.some.inj hc).symm
  subst hcl
  exact ⟨hlogin,
    hacc sample.dbAfterLogin { sample.alice with LastLogin := some ⟨2000⟩, UpdatedAt := ⟨2000⟩ }
      ⟨3000⟩ (by decide) (by decide) (by decide) (by decide),
    hchange,
    hrej sample.dbAfterLogin sample.dbAfterChange
      { sample.alice with LastLogin := some ⟨2000⟩, UpdatedAt := ⟨2000⟩ } sample.change ⟨5000⟩
      (some 11) ⟨6000⟩ (by decide) (by decide) (by decide) hchange (by decide) (by decide)⟩

end Users

/-! ## Lengths and the validators -/

section Validators

open user post

theorem utf8ByteSize_go_ascii : ∀ cs : List Char, (∀ c ∈ cs, c.val ≤ 127) →
    String.utf8ByteSize.go cs = cs.length
  | [], _ => rfl
  | c :: cs, h => by
    have h1 : c.utf8Size = 1 := by
      have := h c (List.mem_cons_self _ _)
      simp [Char.utf8Size, this]
    have h2 := utf8ByteSize_go_ascii cs (fun d hd => h d (List.mem_cons_of_mem _ hd))
    show String.utf8ByteSize.go cs + c.utf8Size = cs.length + 1
    rw [h1, h2]

/-- The byte length of a string of ASCII characters is its number of characters. -/
theorem len_ascii (s : String) (h : ∀ c ∈ s.data, c.val ≤ 127) : len s = s.length := by
  cases s with
  | mk cs => exact utf8ByteSize_go_ascii cs h

theorem len_replicate_a (n : Nat) : len (String.mk (List.replicate n 'a')) = n := by
  rw [len_ascii]
  · simp [String.length]
  · intro c hc
    have : c = 'a' := List.eq_of_mem_replicate hc
    subst this
    decide

theorem ValidateTitle_eq (title : String) :
    ValidateTitle title =
      if 3 ≤ len title ∧ len title ≤ 255 then none else some .ErrInvalidTitle := by
  unfold ValidateTitle
  by_cases h : len title < 3 ∨ len title > 255
  · rw [if_pos h, if_neg]
    omega
  · rw [if_neg h, if_pos]
    omega

theorem ValidateContent_eq (content : String) :
    ValidateContent content = if 10 ≤ len content then none else some .ErrInvalidContent := by
  unfold ValidateContent
  by_cases h : len content < 10
  · rw [if_pos h, if_neg]
    omega
  · rw [if_neg h, if_pos]
    omega

theorem ValidatePassword_eq (password : String) :
    ValidatePassword password =
      if 8 ≤ len password then none
      else some (.New "password must be at least 8 characters long") := by
  unfold ValidatePassword
  by_cases h : len password < 8
  · rw [if_pos h, if_neg]
    omega
  · rw [if_neg h, if_pos]
    omega

/-- C12 (counterexample). The title `éé` has two characters, fewer than 3, and `ValidateTitle`
returns no error for it: its length in bytes is 4. -/
theorem ValidateTitle_counts_bytes :
    ("éé".length = 2 ∧ ¬ (3 ≤ "éé".length ∧ "éé".length ≤ 255)) ∧
      ValidateTitle "éé" = none := by
  decide

/-- C12 (amended). For every title, `ValidateTitle` returns no error exactly when the length
of the title in bytes (Go `len`, the size of its UTF-8 encoding) is between 3 and 255
inclusive, and returns `ErrInvalidTitle` otherwise; for a title of ASCII characters that
length is the number of characters; so `ab` and a title of 256 `a` fail and `Hello` passes. -/
theorem ValidateTitle_byte_length (title : String) :
    (ValidateTitle title = none ↔ 3 ≤ len title ∧ len title ≤ 255) ∧
      (ValidateTitle title ≠ none → ValidateTitle title = some .ErrInvalidTitle) ∧
      ((∀ c ∈ title.data, c.val ≤ 127) → len title = title.length) ∧
      ValidateTitle "ab" = some .ErrInvalidTitle ∧
      ValidateTitle (String.mk (List.replicate 256 'a')) = some .ErrInvalidTitle ∧
      ValidateTitle "Hello" = none := by
  refine ⟨?_, ?_, len_ascii title, by decide, ?_, by decide⟩
  · rw [ValidateTitle_eq]
    by_cases h : 3 ≤ len title ∧ len title ≤ 255 <;> simp [h]
  · rw [ValidateTitle_eq]
    by_cases h : 3 ≤ len title ∧ len title ≤ 255 <;> simp [h]
  · rw [ValidateTitle_eq, len_replicate_a]
    decide

/-- C13. `ValidatePassword` returns no error exactly when the length (Go `len`) of the
password is at least 8; and over every repository and store, `Register` and `ChangePassword`
given a new password shorter than 8 return an error and leave the store as it was. -/
theorem ValidatePassword_choke_point {σ : Type} (s : user.Service σ) (st : σ) :
    (∀ password : String, ValidatePassword password = none ↔ 8 ≤ len password) ∧
      (∀ (input : RegisterInput) (now : Time) (entropy : Option Nat),
        len input.Password < 8 →
        (∃ err, s.Register input now entropy st = (some err, st))) ∧
      (∀ (userID : Nat) (input : ChangePasswordInput) (now : Time) (entropy : Option Nat),
        len input.NewPassword < 8 →
        (∃ err, s.ChangePassword userID input now entropy st = (some err, st))) := by
  refine ⟨?_, ?_, ?_⟩
  · intro password
    rw [ValidatePassword_eq]
    by_cases h : 8 ≤ len password <;> simp [h]
  · intro input now entropy h
    have hv : ValidatePassword input.Password =
        some (.New "password must be at least 8 characters long") := by
      rw [ValidatePassword_eq, if_neg (by omega)]
    unfold user.Service.Register
    cases s.repo.FindByUsername input.Username st with
    | ok u => exact ⟨_, rfl⟩
    | error e =>
      cases s.repo.FindByEmail input.Email st with
      | ok u => exact ⟨_, rfl⟩
      | error e2 =>
        simp only [hv]
        exact ⟨_, rfl⟩
  · intro userID input now entropy h
    have hv : ValidatePassword input.NewPassword =
        some (.New "password must be at least 8 characters long") := by
      rw [ValidatePassword_eq, if_neg (by omega)]
    unfold user.Service.ChangePassword
    cases s.repo.FindByID userID st with
    | error e => exact ⟨_, rfl⟩
    | ok u =>
      dsimp only
      cases hash.CompareHashAndPassword u.PasswordHash input.CurrentPassword with
      | some e => exact ⟨_, rfl⟩
      | none =>
        simp only [hv]
        exact ⟨_, rfl⟩

/-- C13 (witness). A registration of `dave` and a password change of `alice`, both with the
password `short`, over the PostgreSQL repository. -/
theorem ValidatePassword_choke_point_witness :
    len "short" < 8 ∧
      (∃ err, (api.userService "k").Register
          (RegisterInput.mk "dave" "short" "dave@example.com" "" "") ⟨3000⟩ (some 5)
          sample.db = (some err, sample.db)) ∧
      (∃ err, (api.userService "k").ChangePassword 1
          (ChangePasswordInput.mk "correct horse" "short") ⟨3000⟩ (some 5) sample.db =
        (some err, sample.db)) ∧
      (api.userService "k").Register
          (RegisterInput.mk "dave" "short" "dave@example.com" "" "") ⟨3000⟩ (some 5)
          sample.db =
        (some (.New "password must be at least 8 characters long"), sample.db) :=
  ⟨by decide,
    (ValidatePassword_choke_point (api.userService "k") sample.db).2.1
      (RegisterInput.mk "dave" "short" "dave@example.com" "" "") ⟨3000⟩ (some 5) (by decide),
    (ValidatePassword_choke_point (api.userService "k") sample.db).2.2 1
      (ChangePasswordInput.mk "correct horse" "short") ⟨3000⟩ (some 5) (by decide),
    by decide⟩

/-- C15. For every password, cost and entropy read: `GenerateFromPassword` returns
`ErrInvalidCost` (and no digest) exactly when the cost is below 4 or above 31; for a cost
within 4..31, whenever the library call fails it returns `ErrHashFailed` (and no digest); and a
digest it returns is the digest that the library computed from the password, the cost and the
salt, never another one. -/
theorem GenerateFromPassword_cost_and_failure (password : String) (cost : Int)
    (entropy : Option Nat) :
    (hash.GenerateFromPassword password cost entropy = .error .ErrInvalidCost ↔
        cost < 4 ∨ cost > 31) ∧
      (∀ e, bcrypt.GenerateFromPassword password cost entropy = .error e →
        ¬ (cost < 4 ∨ cost > 31) →
        hash.GenerateFromPassword password cost entropy = .error .ErrHashFailed) ∧
      (∀ digest, hash.GenerateFromPassword password cost entropy = .ok digest →
        bcrypt.GenerateFromPassword password cost entropy = .ok digest ∧
          ∃ salt, entropy = some salt ∧ digest = .hashed cost salt password) := by
  unfold hash.GenerateFromPassword hash.MinCost hash.MaxCost
  by_cases hc : cost < 4 ∨ cost > 31
  · simp [hc]
  · simp only [hc, if_false]
    have h4 : ¬ cost < 4 := fun h => hc (Or.inl h)
    have h31 : ¬ cost > 31 := fun h => hc (Or.inr h)
    by_cases hl : len password > 72
    · simp [bcrypt.GenerateFromPassword, hl]
    · cases entropy with
      | none => simp [bcrypt.GenerateFromPassword, h4, h31, hl]
      | some salt => simp [bcrypt.GenerateFromPassword, h4, h31, hl]

/-- C15 (witness). The costs 3, 32 and 10, with and without entropy. -/
theorem GenerateFromPassword_cost_and_failure_witness :
    hash.GenerateFromPassword "correct horse" 3 (some 7) = .error .ErrInvalidCost ∧
      hash.GenerateFromPassword "correct horse" 32 (some 7) = .error .ErrInvalidCost ∧
      hash.GenerateFromPassword "correct horse" 10 none = .error .ErrHashFailed ∧
      hash.GenerateFromPassword "correct horse" 10 (some 7) =
        .ok (.hashed 10 7 "correct horse") :=
  ⟨(GenerateFromPassword_cost_and_failure "correct horse" 3 (some 7)).1.mpr (by decide),
    (GenerateFromPassword_cost_and_failure "correct horse" 32 (some 7)).1.mpr (by decide),
    (GenerateFromPassword_cost_and_failure "correct horse" 10 none).2.1 _ rfl (by decide),
    by decide⟩

end Validators

/-! ## Inactive accounts, failing lookups and updates by the owner -/

section Flows

open user post middlewares auth

/-- C11 (the code at the failing input). The request of `alice` with her valid token, over a
store whose connection fails every statement with a driver error (a timeout, say): the lookup
of the user returns that driver error, not a not-found condition, and the middleware answers
401 with the message `User not found`, not a 5xx status. -/
theorem AuthMiddleware_lookup_failure_is_401 (msg : String) :
    (api.jwtService "k").ValidateToken (extractToken (.bearer sample.token)) ⟨3000⟩ =
        .ok (issuedClaims 1 ⟨1000⟩ ⟨2000⟩ ⟨2000⟩) ∧
      (api.userService "k").GetUserProfile 1 { sample.dbAfterLogin with fault := some msg } =
        .error (.Driver msg) ∧
      AuthMiddleware (api.jwtService "k") (api.userService "k") (.bearer sample.token) ⟨3000⟩
          { sample.dbAfterLogin with fault := some msg } =
        .Abort 401 "User not found" := by
  have hv : (api.jwtService "k").ValidateToken (extractToken (.bearer sample.token)) ⟨3000⟩ =
      .ok (issuedClaims 1 ⟨1000⟩ ⟨2000⟩ ⟨2000⟩) := by decide
  refine ⟨hv, rfl, ?_⟩
  unfold AuthMiddleware
  rw [if_neg (by decide)]
  simp only [hv]
  rfl

/-- C14. For every repository and store, every user that the lookup by the username of the
login returns and whose `IsActive` is false, and every supplied password: `Login` returns the
error `account is not active`, which is not `ErrInvalidPassword`; it returns no token and
leaves the store as it was. -/
theorem Login_inactive_account {σ : Type} (s : user.Service σ) (st : σ) (input : LoginInput)
    (now now1 now2 : Time) (u : User) (hu : s.repo.FindByUsername input.Username st = .ok u)
    (hi : u.IsActive = false) :
    s.Login input now now1 now2 st = (.error (.New "account is not active"), st) ∧
      Err.New "account is not active" ≠ Err.ErrInvalidPassword := by
  refine ⟨?_, by decide⟩
  unfold user.Service.Login
  rw [hu]
  simp [hi]

/-- C14 (witness). The login of `carol`, whose account is not active, with her password. -/
theorem Login_inactive_account_witness :
    (api.userService "k").repo.FindByUsername "carol" sample.dbTwo = .ok sample.carol ∧
      sample.carol.IsActive = false ∧
      (api.userService "k").Login { Username := "carol", Password := "tr0ub4dor" }
          ⟨3000⟩ ⟨3000⟩ ⟨3000⟩ sample.dbTwo =
        (.error (.New "account is not active"), sample.dbTwo) :=
  ⟨by decide, rfl,
    (Login_inactive_account (api.userService "k") sample.dbTwo
      { Username := "carol", Password := "tr0ub4dor" } ⟨3000⟩ ⟨3000⟩ ⟨3000⟩ sample.carol
      (by decide) rfl).1⟩

/-- C16. For every repository and store, every post `P` that the lookup by the id of the
submitted post `p` returns, owned by the caller `A`: with a title of length 3..255 and a
content of length at least 10 (Go `len`), `UpdatePost` returns what the repository write
returns, and the post it writes has the title and the content of `p` and the `ID`, the
`UserID` and the `CreatedAt` of `P`, whatever the other fields of `p` are; with another title
it returns `ErrInvalidTitle`, and with such a title and a shorter content `ErrInvalidContent`,
and in both cases the store is left as it was. -/
theorem UpdatePost_by_owner {σ : Type} (s : post.Service σ) (st : σ) (P p : Post) (A : Nat)
    (now : Time) (hP : s.repo.FindByID p.ID st = .ok P) (hA : P.UserID = A) :
    (3 ≤ len p.Title ∧ len p.Title ≤ 255 → 10 ≤ len p.Content →
        ∃ w : Post, s.UpdatePost p A now st = s.repo.Update w now st ∧
          w = { P with Title := p.Title, Content := p.Content, UpdatedAt := now } ∧
          w.Title = p.Title ∧ w.Content = p.Content ∧
          w.ID = P.ID ∧ w.UserID = P.UserID ∧ w.CreatedAt = P.CreatedAt) ∧
      (¬ (3 ≤ len p.Title ∧ len p.Title ≤ 255) →
        s.UpdatePost p A now st = (some .ErrInvalidTitle, st)) ∧
      (3 ≤ len p.Title ∧ len p.Title ≤ 255 → len p.Content < 10 →
        s.UpdatePost p A now st = (some .ErrInvalidContent, st)) := by
  have ha : P.IsAuthor A = true := by simp [Post.IsAuthor, hA]
  unfold post.Service.UpdatePost
  rw [hP]
  simp only [ha, Bool.not_true, Bool.false_eq_true, if_false]
  refine ⟨?_, ?_, ?_⟩
  · intro ht hc
    refine ⟨{ P with Title := p.Title, Content := p.Content, UpdatedAt := now }, ?_, rfl, rfl,
      rfl, rfl, rfl, rfl⟩
    simp [Post.UpdateContent, ValidateTitle_eq, ValidateContent_eq, ht, hc]
  · intro ht
    simp [Post.UpdateContent, ValidateTitle_eq, ht]
  · intro ht hc
    have hc2 : ¬ 10 ≤ len p.Content := by omega
    simp [Post.UpdateContent, ValidateTitle_eq, ValidateContent_eq, ht, hc2]

/-- C16 (witness). `alice` updates her post over the PostgreSQL repository: the stored post
takes the new title and content and keeps its id, owner and creation time; a title of two
characters and a content of nine are refused. -/
theorem UpdatePost_by_owner_witness :
    api.postService.repo.FindByID sample.rewrite.ID sample.db = .ok sample.hello ∧
      sample.hello.UserID = 1 ∧
      (3 ≤ len sample.rewrite.Title ∧ len sample.rewrite.Title ≤ 255) ∧
      10 ≤ len sample.rewrite.Content ∧
      api.postService.UpdatePost sample.rewrite 1 ⟨4000⟩ sample.db =
        (none, sample.dbAfterRewrite) ∧
      api.postService.UpdatePost { sample.rewrite with Title := "Hi" } 1 ⟨4000⟩ sample.db =
        (some .ErrInvalidTitle, sample.db) ∧
      api.postService.UpdatePost { sample.rewrite with Content := "Too short" } 1 ⟨4000⟩
          sample.db =
        (some .ErrInvalidContent, sample.db) := by
  have h := UpdatePost_by_owner api.postService sample.db sample.hello sample.rewrite 1 ⟨4000⟩
    (by decide) (by decide)
  obtain ⟨w, hw, hweq, _⟩ := h.1 (by decide) (by decide)
  subst hweq
  refine ⟨by decide, by decide, by decide, by decide, ?_, ?_, ?_⟩
  · rw [hw]
    decide
  · exact (UpdatePost_by_owner api.postService sample.db sample.hello
      { sample.rewrite with Title := "Hi" } 1 ⟨4000⟩ (by decide) (by decide)).2.1 (by decide)
  · exact (UpdatePost_by_owner api.postService sample.db sample.hello
      { sample.rewrite with Content := "Too short" } 1 ⟨4000⟩ (by decide) (by decide)).2.2
      (by decide) (by decide)

end Flows

end BlogApi
